import Mathlib

/-!
# ai-mode-queries-server: the request handlers of `src/index.js`

A shallow embedding of the five route handlers of the service and of the part of the
document store they drive.

Modelling conventions.

* JSON request bodies are values of `JVal`; a property that is absent from the body is
  `none`.  Numbers are integers.  A number computed by `parseInt` is a `JsNumber`: `NaN`, an
  infinity, or the double nearest to the integer read.
* Text is a `String`, a sequence of Unicode scalar values.  JavaScript counts text in UTF-16
  code units (`length`, `substring`); `units` gives the code units of a text and the two
  operations are defined on them.
* A handler runs against one store state.  What the code takes from its libraries and does not
  compute itself (date parsing, SHA-256, regular expressions, the text form the store gives to
  a value that is not text) is a field of `Platform`.
* A fault of the store is an input of a handler: `fault = some msg` makes the store operations
  of that call throw `msg`.  So is the order in which the store meets the documents it sorts
  (`Scan`): the code sorts on `timestamp` alone and the store fixes no order among documents of
  equal timestamp, which may come differently from one call to the next.
-/

namespace AiModeQueries

/-! ## JSON values and JavaScript text -/

/-- A parsed JSON value, as `express.json()` leaves it in `req.body`. -/
inductive JVal where
  | null
  | bool (b : Bool)
  | num (n : Int)
  | str (s : String)
  | arr (items : List JVal)
  | obj (members : List (String × JVal))

/-- JavaScript truthiness (`!v` is its negation): `null`, `false`, `0` and `""` are falsy,
every array and object is truthy. -/
def JVal.truthy : JVal → Bool
  | .null => false
  | .bool b => b
  | .num n => n != 0
  | .str s => s != ""
  | .arr _ => true
  | .obj _ => true

/-- Truthiness of a property read off the body; an absent property reads `undefined`. -/
def propTruthy : Option JVal → Bool
  | none => false
  | some v => v.truthy

/-- The WhiteSpace and LineTerminator code points of ECMAScript, the ones
`String.prototype.trim` strips and `parseInt` skips. -/
def isJsSpace (c : Char) : Bool :=
  let n := c.toNat
  n == 0x09 || n == 0x0A || n == 0x0B || n == 0x0C || n == 0x0D || n == 0x20 || n == 0xA0 ||
  n == 0x1680 || (0x2000 ≤ n && n ≤ 0x200A) || n == 0x2028 || n == 0x2029 || n == 0x202F ||
  n == 0x205F || n == 0x3000 || n == 0xFEFF

/-- Removal of leading white space. -/
def trimStart (cs : List Char) : List Char := cs.dropWhile isJsSpace

/-- Removal of trailing white space. -/
def trimEnd (cs : List Char) : List Char := (cs.reverse.dropWhile isJsSpace).reverse

/-- The method `String.prototype.trim`. -/
def trim (s : String) : String := String.mk (trimEnd (trimStart s.data))

/-- UTF-16 code units of one character. -/
def utf16 (c : Char) : List Nat :=
  if c.toNat < 0x10000 then [c.toNat]
  else [0xD800 + (c.toNat - 0x10000) / 0x400, 0xDC00 + (c.toNat - 0x10000) % 0x400]

/-- UTF-16 code units of a text: what a JavaScript string is made of. -/
def units (s : String) : List Nat := (s.data.map utf16).flatten

/-- The property `s.length`. -/
def jsLength (s : String) : Nat := (units s).length

/-- The call `s.substring(0, n)`, as code units (the cut may fall inside a surrogate pair). -/
def substring0 (n : Nat) (s : String) : List Nat := (units s).take n

/-- A number as `parseInt` returns it: `NaN`, an infinity, or a double of integer value. -/
inductive JsNumber where
  | nan
  | infinity (negative : Bool)
  | finite (n : Int)
deriving DecidableEq

/-- Number of binary digits of `n`, counted in at most `fuel` halvings. -/
def bitLengthAux : Nat → Nat → Nat
  | 0, _ => 0
  | fuel + 1, n => if n = 0 then 0 else bitLengthAux fuel (n / 2) + 1

/-- Number of binary digits of a natural number. -/
def bitLength (n : Nat) : Nat := bitLengthAux n n

/-- The double nearest to a natural number, ties going to the even significand of 53 bits;
`none` when that is Infinity. -/
def nearestDouble (n : Nat) : Option Nat :=
  if n < 2 ^ 53 then some n
  else
    let shift := bitLength n - 53
    let q := n / 2 ^ shift
    let r := n % 2 ^ shift
    let half := 2 ^ (shift - 1)
    let q1 := if half < r || (r == half && q % 2 == 1) then q + 1 else q
    if q1 * 2 ^ shift < 2 ^ 1024 then some (q1 * 2 ^ shift) else none

/-! ## Documents and the store -/

/-- The object `queryDoc` built by the POST handler. -/
structure QueryDoc where
  uid : JVal
  query : String
  full_url : JVal
  timestamp : Int
  created_at : Int
  ip_hash : Option String

/-- A stored document: a `queryDoc` under the identifier given at insertion.  Dates are held
by their time value in milliseconds. -/
structure Doc where
  _id : Nat
  uid : JVal
  query : String
  full_url : JVal
  timestamp : Int
  created_at : Int
  ip_hash : Option String

/-- The collection `queries`, in insertion order, and the next identifier to hand out. -/
structure Store where
  docs : List Doc
  nextId : Nat

/-- The store before any request. -/
def Store.empty : Store := { docs := [], nextId := 0 }

/-- The stored identifiers are distinct and below the next one to hand out, as the store
keeps `_id` unique. -/
def Store.distinctIds (st : Store) : Prop :=
  (st.docs.map Doc._id).Nodup ∧ ∀ d ∈ st.docs, d._id < st.nextId

/-- The document stored for a `queryDoc` under identifier `id`. -/
def QueryDoc.stored (q : QueryDoc) (id : Nat) : Doc :=
  { _id := id, uid := q.uid, query := q.query, full_url := q.full_url,
    timestamp := q.timestamp, created_at := q.created_at, ip_hash := q.ip_hash }

/-- The call `insertOne(queryDoc)`: a fault writes nothing; otherwise the document is appended
under a fresh identifier, which is returned as `insertedId`. -/
def insertOne (fault : Option String) (st : Store) (q : QueryDoc) : Except String (Nat × Store) :=
  match fault with
  | some msg => .error msg
  | none => .ok (st.nextId, { docs := st.docs ++ [q.stored st.nextId], nextId := st.nextId + 1 })

/-! ## Library functions taken as given -/

/-- What the handlers get from the JavaScript runtime and from the store engine. -/
structure Platform where
  /-- Time value of `new Date(s)` for a text `s` (the value the store holds for it). -/
  dateOfString : String → Int
  /-- Time value of `new Date(v)` for an array or object `v`; `none` when the conversion of
  `v` to a primitive throws. -/
  dateOfObject : JVal → Option Int
  /-- Lowercase hexadecimal SHA-256 digest of a text. -/
  sha256hex : String → String
  /-- Compilation of a `$regex` pattern with option `i`; `none` when the store rejects it. -/
  regex : String → Option (String → Bool)
  /-- Text that `$substr` reads off a value that is not text; `none` when it refuses the value. -/
  coerceOther : JVal → Option String
  /-- Number of values `distinct` returns for the values of a field. -/
  distinctCount : List JVal → Nat
  /-- What the driver and the store make of a `limit` or `skip` that is `NaN` or an infinity:
  the integer it is read as, or `none` when it is refused. -/
  nonFinite : JsNumber → Option Int

/-- The time value the store holds for `new Date(n)`, `n` a number: `n` itself within the
range of dates (8.64e15 ms either side of the epoch); beyond it the date is invalid and the
driver writes the time value 0. -/
def dateOfNumber (n : Int) : Int :=
  if n.natAbs ≤ 8640000000000000 then n else 0

/-- The constructor call `new Date(ts)`, as the time value the store holds; `none` when the
call throws. -/
def Platform.newDate (P : Platform) : JVal → Option Int
  | .null => some 0
  | .bool b => some (if b then 1 else 0)
  | .num n => some (dateOfNumber n)
  | .str s => some (P.dateOfString s)
  | v => P.dateOfObject v

/-- The expression for `ip_hash`: `req.ip ? sha256(req.ip).digest('hex').substring(0, 16) : null`. -/
def Platform.ipHash (P : Platform) : Option String → Option String
  | none => none
  | some ip => if ip != "" then some (String.mk ((P.sha256hex ip).data.take 16)) else none

/-! ## Responses -/

/-- A projected document, as a list of field names and values. -/
inductive Value where
  | id (n : Nat)
  | json (v : JVal)
  | text (s : String)
  | date (t : Int)

/-- One group of the `topQueries` aggregation. -/
structure TopQuery where
  _id : String
  count : Nat
  lastSeen : Int
deriving DecidableEq, Repr

/-- The object `stats` of `GET /api/stats`. -/
structure Stats where
  totalQueries : Nat
  uniqueUsers : Nat
  todayQueries : Nat
  weekQueries : Nat
  topQueries : List TopQuery

/-- The HTTP responses of the handlers. -/
inductive Response where
  /-- Status 201, body `{ success: true, id, timestamp }`. -/
  | created (id : Nat) (timestamp : Int)
  /-- Status 400, body `{ error }`. -/
  | badRequest (error : String)
  /-- Status 500, body `{ error, message }`. -/
  | serverError (error : String) (message : String)
  /-- Status 200, body `{ success: true, queries, total, count, uid }`; `uid` is given by its
  UTF-16 code units. -/
  | userQueries (queries : List (List (String × Value))) (total count : Nat) (uid : List Nat)
  /-- Status 200, body `{ success: true, queries, total, count }`. -/
  | allQueries (queries : List (List (String × Value))) (total count : Nat)
  /-- Status 200, body `{ success: true, stats }`. -/
  | stats (s : Stats)

/-- Status code of a response. -/
def Response.status : Response → Nat
  | .created _ _ => 201
  | .badRequest _ => 400
  | .serverError _ _ => 500
  | .userQueries _ _ _ _ => 200
  | .allQueries _ _ _ => 200
  | .stats _ => 200

/-! ## POST /api/ai-search -/

/-- The destructured `req.body`: each of the four properties, `none` when absent. -/
structure Body where
  uid : Option JVal
  query : Option JVal
  full_url : Option JVal
  ts : Option JVal

/-- The `try` block of the POST handler past the validation (lines 62-83): the result is the
response sent, or the message of the exception thrown, together with the store left behind. -/
def storeQuery (P : Platform) (now : Int) (fault : Option String) (ip : Option String)
    (uid query full_url ts : JVal) (st : Store) : Except String Response × Store :=
  match query with
  | .str q =>
    match P.newDate ts with
    | none => (.error "Cannot convert object to primitive value", st)
    | some t =>
      let queryDoc : QueryDoc :=
        { uid := uid, query := trim q, full_url := full_url, timestamp := t,
          created_at := now, ip_hash := P.ipHash ip }
      match insertOne fault st queryDoc with
      | .error msg => (.error msg, st)
      | .ok (insertedId, st1) =>
        -- the log line reads query.substring and uid.substring
        match uid with
        | .str _ => (.ok (.created insertedId queryDoc.created_at), st1)
        | _ => (.error "uid.substring is not a function", st1)
  | _ => (.error "query.trim is not a function", st)

/-- The handler of `POST /api/ai-search`: the response and the store after the call. -/
def postAiSearch (P : Platform) (now : Int) (fault : Option String) (ip : Option String)
    (body : Body) (st : Store) : Response × Store :=
  if !propTruthy body.uid || !propTruthy body.query || !propTruthy body.full_url
      || !propTruthy body.ts then
    (.badRequest "Missing required fields: uid, query, full_url, ts", st)
  else
    match body.uid, body.query, body.full_url, body.ts with
    | some uid, some query, some full_url, some ts =>
      match storeQuery P now fault ip uid query full_url ts st with
      | (.ok r, st1) => (r, st1)
      | (.error msg, st1) => (.serverError "Failed to store query" msg, st1)
    | _, _, _, _ => (.badRequest "Missing required fields: uid, query, full_url, ts", st)

/-! ## The cursor operations of the store -/

/-- Value of a digit character in the given radix. -/
def digitValue (radix : Nat) (c : Char) : Option Nat :=
  let n := c.toNat
  let d : Option Nat :=
    if 48 ≤ n && n ≤ 57 then some (n - 48)
    else if 97 ≤ n && n ≤ 122 then some (n - 87)
    else if 65 ≤ n && n ≤ 90 then some (n - 55)
    else none
  d.filter (fun k => k < radix)

/-- The longest run of leading digits, as digit values. -/
def leadingDigits (radix : Nat) : List Char → List Nat
  | [] => []
  | c :: cs =>
    match digitValue radix c with
    | some d => d :: leadingDigits radix cs
    | none => []

/-- The function `parseInt(s)` with no radix argument: the integer read off the text, as the
double nearest to it. -/
def parseInt (s : String) : JsNumber :=
  let cs := trimStart s.data
  let signed : Bool × List Char :=
    match cs with
    | '-' :: r => (true, r)
    | '+' :: r => (false, r)
    | r => (false, r)
  let based : Nat × List Char :=
    match signed.2 with
    | '0' :: 'x' :: r => (16, r)
    | '0' :: 'X' :: r => (16, r)
    | r => (10, r)
  let ds := leadingDigits based.1 based.2
  if ds.isEmpty then .nan
  else
    match nearestDouble (ds.foldl (fun acc d => acc * based.1 + d) 0) with
    | none => .infinity signed.1
    | some n => .finite (if signed.1 then -(n : Int) else (n : Int))

/-- The value the store receives for `parseInt(x)`, `x` a query-string parameter defaulted to
the number `dflt`; `none` when the value is refused. -/
def windowArg (P : Platform) (dflt : Int) : Option String → Option Int
  | none => some dflt
  | some s =>
    match parseInt s with
    | .finite n => some n
    | x => P.nonFinite x

/-- The equality filter `{ uid }` on one stored value: the store selects a document whose
field is the text itself and also one whose field is an array holding the text. -/
def uidMatches (uid : String) : JVal → Bool
  | .str s => s == uid
  | .arr items => items.any (fun v => match v with | .str s => s == uid | _ => false)
  | _ => false

/-- The order in which one call of the store meets the documents it is about to sort: any
rearrangement of them. -/
structure Scan where
  arrange : List Doc → List Doc
  perm : ∀ l, (arrange l).Perm l

/-- The documents met in the order the store holds them. -/
def Scan.natural : Scan := { arrange := fun l => l, perm := fun l => List.Perm.refl l }

/-- The documents met in the opposite order. -/
def Scan.reversed : Scan := { arrange := List.reverse, perm := fun l => List.reverse_perm l }

/-- The stage `sort({ timestamp: -1 })`: latest first.  The sort has no second key: documents
of equal timestamp come out in the order in which this call met them, so that every
arrangement of the documents that is sorted by timestamp is the result of some call. -/
def sortByTimestampDesc (scan : Scan) (ds : List Doc) : List Doc :=
  (scan.arrange ds).insertionSort (fun a b => b.timestamp ≤ a.timestamp)

/-- The stages `limit(l)` and `skip(s)` on a sorted result: the skip is applied first; a limit
of 0 is no limit and a negative limit counts as its absolute value; the store refuses a
negative skip, and `none` stands for a value it has refused. -/
def window {α : Type} (limit skip : Option Int) (ds : List α) : Except String (List α) :=
  match limit, skip with
  | some l, some s =>
    if s < 0 then .error "Skip value must be non-negative"
    else
      let rest := ds.drop s.toNat
      .ok (if l = 0 then rest else rest.take l.natAbs)
  | _, _ => .error "limit and skip must be integers"

/-- The cursor `find(filter).sort({ timestamp: -1 }).limit(l).skip(s)` before projection. -/
def find (fault : Option String) (scan : Scan) (sel : Doc → Bool) (limit skip : Option Int)
    (st : Store) : Except String (List Doc) :=
  match fault with
  | some msg => .error msg
  | none => window limit skip (sortByTimestampDesc scan (st.docs.filter sel))

/-- The call `countDocuments(filter)`. -/
def countDocuments (fault : Option String) (sel : Doc → Bool) (st : Store) : Except String Nat :=
  match fault with
  | some msg => .error msg
  | none => .ok (st.docs.filter sel).length

/-! ## GET /api/queries/:uid -/

/-- The projection `{ query: 1, full_url: 1, timestamp: 1, created_at: 1, _id: 1 }`. -/
def projectUser (d : Doc) : List (String × Value) :=
  [("_id", .id d._id), ("query", .text d.query), ("full_url", .json d.full_url),
   ("timestamp", .date d.timestamp), ("created_at", .date d.created_at)]

/-- The handler of `GET /api/queries/:uid`. -/
def getUserQueries (P : Platform) (fault : Option String) (scan : Scan) (uid : String)
    (limit skip : Option String) (st : Store) : Response :=
  if uid == "" || jsLength uid < 8 then
    .badRequest "Valid uid parameter is required"
  else
    match find fault scan (fun d => uidMatches uid d.uid) (windowArg P 100 limit)
        (windowArg P 0 skip) st with
    | .error msg => .serverError "Failed to fetch queries" msg
    | .ok ds =>
      let queries := ds.map projectUser
      match countDocuments fault (fun d => uidMatches uid d.uid) st with
      | .error msg => .serverError "Failed to fetch queries" msg
      | .ok total => .userQueries queries total queries.length (substring0 8 uid ++ units "...")

/-! ## GET /api/queries -/

/-- Length of the UTF-8 encoding of a character. -/
def utf8Len (c : Char) : Nat :=
  if c.toNat < 0x80 then 1 else if c.toNat < 0x800 then 2 else if c.toNat < 0x10000 then 3 else 4

/-- The first `n` bytes of a text in UTF-8, as `$substr` takes them: the whole text when it has
at most `n` bytes; `none` when byte `n` falls inside a character, where the store throws. -/
def takeBytes : Nat → List Char → Option (List Char)
  | _, [] => some []
  | n, c :: cs =>
    if utf8Len c ≤ n then (takeBytes (n - utf8Len c) cs).map (fun r => c :: r)
    else if n = 0 then some []
    else none

/-- The text `$substr` works on. -/
def Platform.textOf (P : Platform) : JVal → Option String
  | .str s => some s
  | v => P.coerceOther v

/-- The expression `{ $substr: ['$uid', 0, 8] }` on a stored uid. -/
def Platform.substrUid (P : Platform) (v : JVal) : Option String :=
  match P.textOf v with
  | none => none
  | some s => (takeBytes 8 s.data).map String.mk

/-- The projection `{ query: 1, timestamp: 1, created_at: 1, uid: { $substr: ... }, _id: 1 }`. -/
def projectAll (P : Platform) (d : Doc) : Option (List (String × Value)) :=
  match P.substrUid d.uid with
  | none => none
  | some u =>
    some [("_id", .id d._id), ("query", .text d.query), ("timestamp", .date d.timestamp),
          ("created_at", .date d.created_at), ("uid", .text u)]

/-- A projection applied to every document of a result; it fails when it fails on one. -/
def projectEach (f : Doc → Option (List (String × Value))) :
    List Doc → Option (List (List (String × Value)))
  | [] => some []
  | d :: ds =>
    match f d, projectEach f ds with
    | some r, some rs => some (r :: rs)
    | _, _ => none

/-- The filter built from `search`: all documents when `search` is absent or empty, else the
documents whose query the pattern matches; `none` when the store rejects the pattern. -/
def searchFilter (P : Platform) : Option String → Option (Doc → Bool)
  | none => some (fun _ => true)
  | some s =>
    if s != "" then (P.regex s).map (fun m => fun d => m d.query)
    else some (fun _ => true)

/-- The handler of `GET /api/queries`. -/
def getAllQueries (P : Platform) (fault : Option String) (scan : Scan)
    (limit skip search : Option String) (st : Store) : Response :=
  match searchFilter P search with
  | none => .serverError "Failed to fetch queries" "Regular expression is invalid"
  | some sel =>
    match find fault scan sel (windowArg P 50 limit) (windowArg P 0 skip) st with
    | .error msg => .serverError "Failed to fetch queries" msg
    | .ok ds =>
      match projectEach (projectAll P) ds with
      | none => .serverError "Failed to fetch queries" "$substr cannot read the value"
      | some queries =>
        match countDocuments fault sel st with
        | .error msg => .serverError "Failed to fetch queries" msg
        | .ok total => .allQueries queries total queries.length

/-! ## GET /api/stats -/

/-- Milliseconds in a day. -/
def msPerDay : Int := 86400000

/-- The local time zone of the server: the offset from UTC in force at a UTC time value and
the one applied to a local time value, neither beyond a day. -/
structure TimeZone where
  offsetAt : Int → Int
  offsetOfLocal : Int → Int
  offsetAt_le : ∀ t, offsetAt t ≤ msPerDay
  offsetAt_ge : ∀ t, -msPerDay ≤ offsetAt t
  offsetOfLocal_le : ∀ t, offsetOfLocal t ≤ msPerDay
  offsetOfLocal_ge : ∀ t, -msPerDay ≤ offsetOfLocal t

/-- The abstract operation LocalTime of ECMAScript. -/
def TimeZone.localTime (tz : TimeZone) (t : Int) : Int := t + tz.offsetAt t

/-- The abstract operation UTC of ECMAScript. -/
def TimeZone.utc (tz : TimeZone) (t : Int) : Int := t - tz.offsetOfLocal t

/-- The date `today` after `today.setHours(0, 0, 0, 0)`: local midnight of the day of `t`. -/
def today (tz : TimeZone) (t : Int) : Int :=
  let l := tz.localTime t
  tz.utc (l - l % msPerDay)

/-- The date `last7Days` after `last7Days.setDate(last7Days.getDate() - 7)`: the local day
number goes back by 7 and the time within the day is kept. -/
def last7Days (tz : TimeZone) (t : Int) : Int :=
  let l := tz.localTime t
  tz.utc ((l / msPerDay - 7) * msPerDay + l % msPerDay)

/-- The call `countDocuments({ created_at: { $gte: since } })`. -/
def countSince (since : Int) (st : Store) : Nat :=
  (st.docs.filter (fun d => since ≤ d.created_at)).length

/-- One document entering the `$group` stage: the group of its query gets `$sum: 1` and
`$max: '$timestamp'`; a query seen for the first time opens a group. -/
def addToGroups (d : Doc) : List TopQuery → List TopQuery
  | [] => [{ _id := d.query, count := 1, lastSeen := d.timestamp }]
  | g :: gs =>
    if g._id = d.query then
      { _id := g._id, count := g.count + 1, lastSeen := max g.lastSeen d.timestamp } :: gs
    else g :: addToGroups d gs

/-- The stage `$group` by `$query` over the collection. -/
def groupByQuery (ds : List Doc) : List TopQuery :=
  ds.foldl (fun gs d => addToGroups d gs) []

/-- The pipeline `[$group, { $sort: { count: -1 } }, { $limit: 10 }]`. -/
def topQueries (st : Store) : List TopQuery :=
  ((groupByQuery st.docs).insertionSort (fun a b => b.count ≤ a.count)).take 10

/-- The handler of `GET /api/stats`; `now1` and `now2` are the two readings of the clock, for
`today` and for `last7Days`. -/
def getStats (P : Platform) (tz : TimeZone) (now1 now2 : Int) (fault : Option String)
    (st : Store) : Response :=
  match fault with
  | some msg => .serverError "Failed to fetch statistics" msg
  | none =>
    let totalQueries := st.docs.length
    let uniqueUsers := P.distinctCount (st.docs.map Doc.uid)
    let todayQueries := countSince (today tz now1) st
    let weekQueries := countSince (last7Days tz now2) st
    .stats { totalQueries := totalQueries, uniqueUsers := uniqueUsers,
             todayQueries := todayQueries, weekQueries := weekQueries,
             topQueries := topQueries st }

/-! ## Reading responses, and sample data -/

/-- The array `queries` of a 200 response of the two listing routes. -/
def Response.queries : Response → List (List (String × Value))
  | .userQueries qs _ _ _ => qs
  | .allQueries qs _ _ => qs
  | _ => []

/-- The field `count` of a listing response. -/
def Response.count : Response → Option Nat
  | .userQueries _ _ c _ => some c
  | .allQueries _ _ c => some c
  | _ => none

/-- The field `total` of a listing response. -/
def Response.total : Response → Option Nat
  | .userQueries _ t _ _ => some t
  | .allQueries _ t _ => some t
  | _ => none

/-- The field `uid` of the response of `GET /api/queries/:uid`. -/
def Response.uidShown : Response → Option (List Nat)
  | .userQueries _ _ _ u => some u
  | _ => none

/-- The array `stats.topQueries` of the response of `GET /api/stats`. -/
def Response.topQueries : Response → List TopQuery
  | .stats s => s.topQueries
  | _ => []

/-- The text under `uid` in a projected document. -/
def recordUid : List (String × Value) → Option String
  | [] => none
  | (k, v) :: rest =>
    if k = "uid" then (match v with | .text s => some s | _ => none) else recordUid rest

/-- The identifier under `_id` in a projected document. -/
def recordId : List (String × Value) → Option Nat
  | [] => none
  | (k, v) :: rest =>
    if k = "_id" then (match v with | .id n => some n | _ => none) else recordId rest

/-- The field names of a projected document. -/
def fieldNames (r : List (String × Value)) : List String := r.map Prod.fst

/-- A body property is missing: absent, or the empty text. -/
def missing (v : Option JVal) : Prop := v = none ∨ v = some (.str "")

/-- A body whose four properties are texts. -/
def textBody (uid query full_url ts : String) : Body :=
  { uid := some (.str uid), query := some (.str query), full_url := some (.str full_url),
    ts := some (.str ts) }

/-- A platform to run the handlers on examples: the date of a text is its length, the digest
of a text is the text after a fixed run of hexadecimal digits, a pattern matches the queries
equal to it, `$substr` refuses what is not text, a limit or skip that is not finite is
refused. -/
def samplePlatform : Platform :=
  { dateOfString := fun s => s.length
    dateOfObject := fun _ => none
    sha256hex := fun s => "00112233445566778899aabbccddeeff" ++ s
    regex := fun p => some (fun t => p == t)
    coerceOther := fun _ => none
    distinctCount := fun l => l.length
    nonFinite := fun _ => none }

/-- The value is a text. -/
def JVal.isText : JVal → Bool
  | .str _ => true
  | _ => false

/-- The stored value is the text `uid` itself. -/
def textIs (uid : String) : JVal → Bool
  | .str s => s == uid
  | _ => false

/-- The store after three accepted requests of `uid` "user1234" with the queries "cats", "dogs"
and "cats", sent at server times 10, 20 and 30 with event times 1, 2 and 3. -/
def sampleStore : Store :=
  let s1 := (postAiSearch samplePlatform 10 none none
    (textBody "user1234" "cats" "https://example.com/a" "a") Store.empty).2
  let s2 := (postAiSearch samplePlatform 20 none none
    (textBody "user1234" "dogs" "https://example.com/b" "bb") s1).2
  (postAiSearch samplePlatform 30 none none
    (textBody "user1234" "cats" "https://example.com/c" "ccc") s2).2

/-- The store after two accepted requests of `uid` "user1234" that carry the same event
time 1. -/
def tiedStore : Store :=
  let s1 := (postAiSearch samplePlatform 10 none none
    (textBody "user1234" "cats" "https://example.com/a" "a") Store.empty).2
  (postAiSearch samplePlatform 20 none none
    (textBody "user1234" "dogs" "https://example.com/b" "b") s1).2

/-- A body whose uid is an array holding one text. -/
def arrayUidBody : Body :=
  { uid := some (.arr [.str "user12345"]), query := some (.str "cats"),
    full_url := some (.str "https://example.com"), ts := some (.str "2024-05-01") }

/-- Length of the UTF-8 encoding of a text. -/
def byteLength (cs : List Char) : Nat := (cs.map utf8Len).sum

/-- What the `$group` stage has accumulated once the documents `ds` have gone through it: one
group per query seen, with the number of its documents and the latest of their timestamps. -/
structure Grouped (ds : List Doc) (gs : List TopQuery) : Prop where
  nodup : (gs.map TopQuery._id).Nodup
  covers : ∀ d ∈ ds, d.query ∈ gs.map TopQuery._id
  count_eq : ∀ g ∈ gs, g.count = ds.countP (fun d => d.query = g._id)
  seen : ∀ g ∈ gs, ∃ d ∈ ds, d.query = g._id ∧ d.timestamp = g.lastSeen
  latest : ∀ g ∈ gs, ∀ d ∈ ds, d.query = g._id → d.timestamp ≤ g.lastSeen

/-- The time zone UTC. -/
def utcZone : TimeZone :=
  { offsetAt := fun _ => 0
    offsetOfLocal := fun _ => 0
    offsetAt_le := fun _ => show (0 : Int) ≤ 86400000 by decide
    offsetAt_ge := fun _ => show (-86400000 : Int) ≤ 0 by decide
    offsetOfLocal_le := fun _ => show (0 : Int) ≤ 86400000 by decide
    offsetOfLocal_ge := fun _ => show (-86400000 : Int) ≤ 0 by decide }

/-! ## Properties of POST /api/ai-search -/

theorem propTruthy_missing {v : Option JVal} (h : missing v) : propTruthy v = false := by
  rcases h with h | h <;> subst h <;> rfl

theorem postAiSearch_of_falsy (P : Platform) (now : Int) (fault : Option String)
    (ip : Option String) (body : Body) (st : Store)
    (h : propTruthy body.uid = false ∨ propTruthy body.query = false ∨
      propTruthy body.full_url = false ∨ propTruthy body.ts = false) :
    postAiSearch P now fault ip body st =
      (.badRequest "Missing required fields: uid, query, full_url, ts", st) := by
  unfold postAiSearch
  rcases h with h | h | h | h <;> simp [h]

/-- C1: a body in which one of uid, query, full_url, ts is missing (absent or empty) is answered
with status 400 and the store after the call is the store before it. -/
theorem post_missing_field_rejected (P : Platform) (now : Int) (fault : Option String)
    (ip : Option String) (body : Body) (st : Store)
    (h : missing body.uid ∨ missing body.query ∨ missing body.full_url ∨ missing body.ts) :
    (postAiSearch P now fault ip body st).1.status = 400 ∧
      (postAiSearch P now fault ip body st).2 = st := by
  have h2 : propTruthy body.uid = false ∨ propTruthy body.query = false ∨
      propTruthy body.full_url = false ∨ propTruthy body.ts = false := by
    rcases h with h | h | h | h
    · exact Or.inl (propTruthy_missing h)
    · exact Or.inr (Or.inl (propTruthy_missing h))
    · exact Or.inr (Or.inr (Or.inl (propTruthy_missing h)))
    · exact Or.inr (Or.inr (Or.inr (propTruthy_missing h)))
  rw [postAiSearch_of_falsy P now fault ip body st h2]
  exact ⟨rfl, rfl⟩

theorem post_missing_field_rejected_witness :
    (missing (none : Option JVal) ∨ missing (some (JVal.str "cats")) ∨
        missing (some (JVal.str "")) ∨ missing (some (JVal.num 7))) ∧
      (postAiSearch samplePlatform 5 none (some "10.0.0.1")
        { uid := none, query := some (.str "cats"), full_url := some (.str ""),
          ts := some (.num 7) } Store.empty).1.status = 400 ∧
      (postAiSearch samplePlatform 5 none (some "10.0.0.1")
        { uid := none, query := some (.str "cats"), full_url := some (.str ""),
          ts := some (.num 7) } Store.empty).2 = Store.empty :=
  ⟨Or.inl (Or.inl rfl),
    post_missing_field_rejected samplePlatform 5 none (some "10.0.0.1")
      { uid := none, query := some (.str "cats"), full_url := some (.str ""),
        ts := some (.num 7) } Store.empty (Or.inl (Or.inl rfl))⟩

theorem head_dropWhile_not (p : Char → Bool) (l : List Char) (c : Char)
    (h : (l.dropWhile p).head? = some c) : p c = false := by
  induction l with
  | nil => simp at h
  | cons a l ih =>
    by_cases hp : p a = true
    · rw [List.dropWhile_cons_of_pos hp] at h
      exact ih h
    · rw [List.dropWhile_cons_of_neg hp] at h
      simp at h
      subst h
      simpa using hp

theorem trim_data (q : String) :
    ∃ pre post : List Char, q.data = pre ++ (trim q).data ++ post ∧
      (∀ c ∈ pre, isJsSpace c = true) ∧ (∀ c ∈ post, isJsSpace c = true) ∧
      (∀ c, (trim q).data.head? = some c → isJsSpace c = false) ∧
      (∀ c, (trim q).data.getLast? = some c → isJsSpace c = false) := by
  refine ⟨q.data.takeWhile isJsSpace,
    (((q.data.dropWhile isJsSpace).reverse).takeWhile isJsSpace).reverse, ?_, ?_, ?_, ?_, ?_⟩
  · have h1 : q.data = q.data.takeWhile isJsSpace ++ q.data.dropWhile isJsSpace :=
      (List.takeWhile_append_dropWhile _ _).symm
    have h2 : (q.data.dropWhile isJsSpace).reverse =
        ((q.data.dropWhile isJsSpace).reverse).takeWhile isJsSpace ++
          ((q.data.dropWhile isJsSpace).reverse).dropWhile isJsSpace :=
      (List.takeWhile_append_dropWhile _ _).symm
    have h3 := congrArg List.reverse h2
    rw [List.reverse_reverse, List.reverse_append] at h3
    show q.data = _ ++ trimEnd (trimStart q.data) ++ _
    unfold trimEnd trimStart
    rw [List.append_assoc, ← h3]
    exact h1
  · intro c hc
    exact List.mem_takeWhile_imp hc
  · intro c hc
    rw [List.mem_reverse] at hc
    exact List.mem_takeWhile_imp hc
  · intro c hc
    have hc2 : (trimEnd (trimStart q.data)).head? = some c := hc
    have h2 : (q.data.dropWhile isJsSpace).reverse =
        ((q.data.dropWhile isJsSpace).reverse).takeWhile isJsSpace ++
          ((q.data.dropWhile isJsSpace).reverse).dropWhile isJsSpace :=
      (List.takeWhile_append_dropWhile _ _).symm
    have h3 := congrArg List.reverse h2
    rw [List.reverse_reverse, List.reverse_append] at h3
    have h4 : (q.data.dropWhile isJsSpace).head? = some c := by
      rw [h3]
      unfold trimEnd trimStart at hc2
      cases hl : ((q.data.dropWhile isJsSpace).reverse.dropWhile isJsSpace).reverse with
      | nil => rw [hl] at hc2; simp at hc2
      | cons a t => rw [hl] at hc2; simpa using hc2
    exact head_dropWhile_not _ _ _ h4
  · intro c hc
    have hc2 : (trimEnd (trimStart q.data)).getLast? = some c := hc
    unfold trimEnd at hc2
    rw [List.getLast?_reverse] at hc2
    exact head_dropWhile_not _ _ _ hc2

/-- C3: a request whose uid, query, full_url and ts are non-empty texts, with an insert that
does not fault, is answered 201 with the identifier of the new document and the server time;
the store afterwards is the store before plus that one document, which carries uid and
full_url as given, the query without its leading and trailing white space, the date parsed
from ts, the server time as created_at, and as ip_hash the first 16 characters of the
hexadecimal SHA-256 digest of the caller address, or null when there is no address. -/
theorem post_valid_stores_one (P : Platform) (now : Int) (ip : Option String)
    (uid query full_url ts : String) (st : Store)
    (huid : uid ≠ "") (hquery : query ≠ "") (hurl : full_url ≠ "") (hts : ts ≠ "") :
    ∃ d : Doc,
      postAiSearch P now none ip (textBody uid query full_url ts) st =
        (.created d._id now, { docs := st.docs ++ [d], nextId := st.nextId + 1 }) ∧
      d._id = st.nextId ∧ d.uid = .str uid ∧ d.full_url = .str full_url ∧
      d.query = trim query ∧
      (∃ pre post : List Char, query.data = pre ++ d.query.data ++ post ∧
        (∀ c ∈ pre, isJsSpace c = true) ∧ (∀ c ∈ post, isJsSpace c = true) ∧
        (∀ c, d.query.data.head? = some c → isJsSpace c = false) ∧
        (∀ c, d.query.data.getLast? = some c → isJsSpace c = false)) ∧
      P.newDate (.str ts) = some d.timestamp ∧ d.created_at = now ∧
      (∀ a, ip = some a → a ≠ "" → d.ip_hash = some (String.mk ((P.sha256hex a).data.take 16))) ∧
      (ip = none ∨ ip = some "" → d.ip_hash = none) := by
  refine ⟨{ _id := st.nextId, uid := .str uid, query := trim query, full_url := .str full_url,
            timestamp := P.dateOfString ts, created_at := now, ip_hash := P.ipHash ip },
    ?_, rfl, rfl, rfl, rfl, trim_data query, rfl, rfl, ?_, ?_⟩
  · simp [postAiSearch, textBody, propTruthy, JVal.truthy, huid, hquery, hurl, hts, storeQuery,
      Platform.newDate, insertOne, QueryDoc.stored]
  · intro a ha hne
    subst ha
    simp [Platform.ipHash, hne]
  · intro h
    rcases h with h | h <;> subst h <;> simp [Platform.ipHash]

theorem post_valid_stores_one_witness :
    ∃ d : Doc,
      postAiSearch samplePlatform 5 none (some "10.0.0.1")
          (textBody "user1234" "  cats " "https://example.com/?q=cats" "2024-05-01T10:00:00Z")
          Store.empty =
        (.created d._id 5, { docs := Store.empty.docs ++ [d], nextId := Store.empty.nextId + 1 }) ∧
      d.query = "cats" ∧ d.ip_hash = some "0011223344556677" := by
  obtain ⟨d, h1, _, _, _, h5, _, _, _, h9, _⟩ :=
    post_valid_stores_one samplePlatform 5 (some "10.0.0.1")
      "user1234" "  cats " "https://example.com/?q=cats" "2024-05-01T10:00:00Z" Store.empty
      (by decide) (by decide) (by decide) (by decide)
  refine ⟨d, h1, ?_, ?_⟩
  · rw [h5]; decide
  · rw [h9 "10.0.0.1" rfl (by decide)]; decide

theorem trim_blank (q : String) (h : ∀ c ∈ q.data, isJsSpace c = true) : trim q = "" := by
  have h1 : trimStart q.data = [] := by
    unfold trimStart
    rw [List.dropWhile_eq_nil_iff]
    exact h
  unfold trim
  rw [h1]
  rfl

/-- A query made of white space only passes the guard and is stored as the empty text. -/
theorem post_blank_query_accepted (P : Platform) (now : Int) (ip : Option String)
    (uid query full_url ts : String) (st : Store)
    (huid : uid ≠ "") (hquery : query ≠ "") (hurl : full_url ≠ "") (hts : ts ≠ "")
    (hblank : ∀ c ∈ query.data, isJsSpace c = true) :
    (postAiSearch P now none ip (textBody uid query full_url ts) st).1 =
        .created st.nextId now ∧
      (postAiSearch P now none ip (textBody uid query full_url ts) st).2.docs.map Doc.query =
        st.docs.map Doc.query ++ [""] := by
  simp [postAiSearch, textBody, propTruthy, JVal.truthy, huid, hquery, hurl, hts, storeQuery,
    Platform.newDate, insertOne, QueryDoc.stored, trim_blank query hblank]

/-- A truthy uid that is not a text (a number, `true`, an array, an object) passes the guard:
the document is inserted, then the log line throws and the response is 500. -/
theorem post_untyped_uid_stored (P : Platform) (now : Int) (ip : Option String)
    (uid : JVal) (query full_url ts : String) (st : Store)
    (huid : uid.truthy = true) (hnot : uid.isText = false)
    (hquery : query ≠ "") (hurl : full_url ≠ "") (hts : ts ≠ "") :
    (postAiSearch P now none ip
        { uid := some uid, query := some (.str query), full_url := some (.str full_url),
          ts := some (.str ts) } st).1 =
        .serverError "Failed to store query" "uid.substring is not a function" ∧
      (postAiSearch P now none ip
        { uid := some uid, query := some (.str query), full_url := some (.str full_url),
          ts := some (.str ts) } st).2.docs.length = st.docs.length + 1 := by
  cases uid with
  | str s => simp [JVal.isText] at hnot
  | null => simp [JVal.truthy] at huid
  | bool b =>
    simp only [JVal.truthy] at huid
    subst huid
    simp [postAiSearch, propTruthy, JVal.truthy, hquery, hurl, hts, storeQuery,
      Platform.newDate, insertOne]
  | num n =>
    have hn : n ≠ 0 := by simpa [JVal.truthy] using huid
    simp [postAiSearch, propTruthy, JVal.truthy, hn, hquery, hurl, hts, storeQuery,
      Platform.newDate, insertOne]
  | arr l =>
    simp [postAiSearch, propTruthy, JVal.truthy, hquery, hurl, hts, storeQuery,
      Platform.newDate, insertOne]
  | obj m =>
    simp [postAiSearch, propTruthy, JVal.truthy, hquery, hurl, hts, storeQuery,
      Platform.newDate, insertOne]

/-- C2: a body with the number 12345678 as uid is answered 500 although its document has been
inserted: the store holds one document more than before the call. -/
theorem post_numeric_uid_fails_after_insert :
    (postAiSearch samplePlatform 5 none (some "10.0.0.1")
        { uid := some (.num 12345678), query := some (.str "cats"),
          full_url := some (.str "https://example.com"), ts := some (.str "2024-05-01") }
        Store.empty).1.status = 500 ∧
      (postAiSearch samplePlatform 5 none (some "10.0.0.1")
        { uid := some (.num 12345678), query := some (.str "cats"),
          full_url := some (.str "https://example.com"), ts := some (.str "2024-05-01") }
        Store.empty).2.docs.map Doc.query = ["cats"] ∧
      Store.empty.docs.map Doc.query = [] := by
  decide

/-- C10: from the empty store, one accepted request whose query is three blanks leaves a
stored document whose query is the empty text. -/
theorem post_blank_query_stored_empty :
    (postAiSearch samplePlatform 5 none (some "10.0.0.1")
        (textBody "user1234" "   " "https://example.com" "2024-05-01") Store.empty).1.status = 201 ∧
      (postAiSearch samplePlatform 5 none (some "10.0.0.1")
        (textBody "user1234" "   " "https://example.com" "2024-05-01") Store.empty).2.docs.map
          Doc.query = [""] := by
  decide

theorem storeQuery_store (P : Platform) (now : Int) (fault : Option String) (ip : Option String)
    (uid query full_url ts : JVal) (st : Store) :
    (storeQuery P now fault ip uid query full_url ts st).2 = st ∨
      ∃ q : QueryDoc, (storeQuery P now fault ip uid query full_url ts st).2 =
        { docs := st.docs ++ [q.stored st.nextId], nextId := st.nextId + 1 } := by
  unfold storeQuery
  cases query with
  | str q =>
    cases hd : P.newDate ts with
    | none => exact Or.inl rfl
    | some t =>
      cases fault with
      | some msg => exact Or.inl rfl
      | none =>
        refine Or.inr ⟨QueryDoc.mk uid (trim q) full_url t now (P.ipHash ip), ?_⟩
        cases uid <;> rfl
  | null => exact Or.inl rfl
  | bool b => exact Or.inl rfl
  | num n => exact Or.inl rfl
  | arr l => exact Or.inl rfl
  | obj m => exact Or.inl rfl

theorem postAiSearch_store (P : Platform) (now : Int) (fault : Option String)
    (ip : Option String) (body : Body) (st : Store) :
    (postAiSearch P now fault ip body st).2 = st ∨
      ∃ q : QueryDoc, (postAiSearch P now fault ip body st).2 =
        { docs := st.docs ++ [q.stored st.nextId], nextId := st.nextId + 1 } := by
  unfold postAiSearch
  split
  · exact Or.inl rfl
  · split
    · rename_i uid query full_url ts _ _ _ _
      have h := storeQuery_store P now fault ip uid query full_url ts st
      split <;> rename_i heq <;> rw [heq] at h <;> exact h
    · exact Or.inl rfl

theorem distinctIds_empty : Store.empty.distinctIds :=
  ⟨List.nodup_nil, by simp [Store.empty]⟩

theorem postAiSearch_distinctIds (P : Platform) (now : Int) (fault : Option String)
    (ip : Option String) (body : Body) (st : Store) (h : st.distinctIds) :
    (postAiSearch P now fault ip body st).2.distinctIds := by
  rcases postAiSearch_store P now fault ip body st with h1 | ⟨q, h1⟩
  · rw [h1]; exact h
  · rw [h1]
    obtain ⟨hn, hlt⟩ := h
    refine ⟨?_, ?_⟩
    · simp only [List.map_append, List.map_cons, List.map_nil]
      refine List.Nodup.append hn (List.nodup_singleton _) ?_
      intro i hi hi2
      rw [List.mem_singleton] at hi2
      obtain ⟨d, hd, heq⟩ := List.mem_map.mp hi
      have := hlt d hd
      have h3 : (q.stored st.nextId)._id = st.nextId := rfl
      omega
    · intro d hd
      simp only [List.mem_append, List.mem_singleton] at hd
      rcases hd with hd | hd
      · have := hlt d hd
        show d._id < st.nextId + 1
        omega
      · subst hd
        show st.nextId < st.nextId + 1
        omega

/-! ## Properties of GET /api/queries/:uid -/

theorem jsLength_empty : jsLength "" = 0 := rfl

theorem parseInt_rounds_to_double :
    nearestDouble 9007199254740993 = some 9007199254740992 := by
  set_option exponentiation.threshold 2000 in
  decide

theorem windowArg_absent (P : Platform) (dflt : Int) : windowArg P dflt none = some dflt := rfl

theorem windowArg_finite (P : Platform) (dflt : Int) (s : String) (n : Int)
    (h : parseInt s = .finite n) : windowArg P dflt (some s) = some n := by
  simp [windowArg, h]

theorem getUserQueries_short (P : Platform) (fault : Option String) (scan : Scan) (uid : String)
    (limit skip : Option String) (st : Store) (h : jsLength uid < 8) :
    getUserQueries P fault scan uid limit skip st =
      .badRequest "Valid uid parameter is required" := by
  unfold getUserQueries
  simp [h]

theorem getUserQueries_long (P : Platform) (fault : Option String) (scan : Scan) (uid : String)
    (limit skip : Option String) (st : Store) (h : 8 ≤ jsLength uid) :
    getUserQueries P fault scan uid limit skip st =
      match find fault scan (fun d => uidMatches uid d.uid) (windowArg P 100 limit)
          (windowArg P 0 skip) st with
      | .error msg => .serverError "Failed to fetch queries" msg
      | .ok ds =>
        match countDocuments fault (fun d => uidMatches uid d.uid) st with
        | .error msg => .serverError "Failed to fetch queries" msg
        | .ok total =>
          .userQueries (ds.map projectUser) total (ds.map projectUser).length
            (substring0 8 uid ++ units "...") := by
  unfold getUserQueries
  have h1 : ¬ jsLength uid < 8 := Nat.not_lt.mpr h
  have h2 : uid ≠ "" := by
    intro h3
    rw [h3, jsLength_empty] at h
    omega
  simp [h1, h2]

theorem find_ok_fault {fault : Option String} {scan : Scan} {sel : Doc → Bool}
    {limit skip : Option Int} {st : Store} {ds : List Doc}
    (h : find fault scan sel limit skip st = .ok ds) :
    fault = none ∧ window limit skip (sortByTimestampDesc scan (st.docs.filter sel)) = .ok ds := by
  unfold find at h
  cases fault with
  | none => exact ⟨rfl, h⟩
  | some msg => simp at h

theorem window_ok {α : Type} {limit skip : Option Int} {l ds : List α}
    (h : window limit skip l = .ok ds) :
    ∃ L S : Int, limit = some L ∧ skip = some S ∧ 0 ≤ S ∧
      ds = (if L = 0 then l.drop S.toNat else (l.drop S.toNat).take L.natAbs) := by
  unfold window at h
  cases limit with
  | none => simp at h
  | some L =>
    cases skip with
    | none => simp at h
    | some S =>
      by_cases hS : S < 0
      · simp [hS] at h
      · simp only [hS, if_false] at h
        refine ⟨L, S, rfl, rfl, by omega, ?_⟩
        injection h with h
        exact h.symm

theorem window_accepts {α : Type} (L S : Int) (hS : 0 ≤ S) (l : List α) :
    window (some L) (some S) l =
      .ok (if L = 0 then l.drop S.toNat else (l.drop S.toNat).take L.natAbs) := by
  unfold window
  have h1 : ¬ (S < 0) := by omega
  simp only [h1, if_false]

theorem window_negative_skip {α : Type} (limit : Option Int) (S : Int) (hS : S < 0)
    (l : List α) : ∃ msg, window limit (some S) l = .error msg := by
  unfold window
  cases limit with
  | none => exact ⟨_, rfl⟩
  | some L => simp [hS]

theorem getUserQueries_status_long (P : Platform) (fault : Option String) (scan : Scan)
    (uid : String) (limit skip : Option String) (st : Store) (h : 8 ≤ jsLength uid) :
    (getUserQueries P fault scan uid limit skip st).status = 200 ∨
      (getUserQueries P fault scan uid limit skip st).status = 500 := by
  rw [getUserQueries_long P fault scan uid limit skip st h]
  cases find fault scan (fun d => uidMatches uid d.uid) (windowArg P 100 limit)
      (windowArg P 0 skip) st with
  | error msg => exact Or.inr rfl
  | ok ds =>
    cases countDocuments fault (fun d => uidMatches uid d.uid) st with
    | error msg => exact Or.inr rfl
    | ok total => exact Or.inl rfl

/-- C9 (amended): the route `GET /api/queries/:uid` answers 400 exactly when the uid has fewer
than 8 characters (code units), and then the answer is the same for every store, fault and
library behaviour: the store is not queried; for a uid of 8 or more and a store that does not
fault, the response is 200 with success: true, also when no record matches (queries empty,
count 0, total 0), provided limit and skip reach the store as integers with skip not negative,
as they do when they are absent and when `parseInt` reads integers off them; a negative skip
is answered 500. -/
theorem user_queries_status (P : Platform) (fault : Option String) (scan : Scan) (uid : String)
    (limit skip : Option String) (st : Store) :
    ((getUserQueries P fault scan uid limit skip st).status = 400 ↔ jsLength uid < 8) ∧
    (jsLength uid < 8 → ∀ (P2 : Platform) (fault2 : Option String) (scan2 : Scan) (st2 : Store),
      getUserQueries P2 fault2 scan2 uid limit skip st2 =
        getUserQueries P fault scan uid limit skip st) ∧
    (8 ≤ jsLength uid → fault = none → ∀ L S : Int,
      windowArg P 100 limit = some L → windowArg P 0 skip = some S → 0 ≤ S →
      (getUserQueries P fault scan uid limit skip st).status = 200 ∧
      ∃ (ds : List Doc) (total : Nat), getUserQueries P fault scan uid limit skip st =
          .userQueries (ds.map projectUser) total ds.length (substring0 8 uid ++ units "...") ∧
        ((∀ d ∈ st.docs, uidMatches uid d.uid = false) → ds = [] ∧ total = 0)) ∧
    (8 ≤ jsLength uid → ∀ S : Int, windowArg P 0 skip = some S → S < 0 →
      (getUserQueries P fault scan uid limit skip st).status = 500) ∧
    (windowArg P 100 none = some 100 ∧ windowArg P 0 none = some 0 ∧
      ∀ (dflt : Int) (s : String) (n : Int), parseInt s = .finite n →
        windowArg P dflt (some s) = some n) := by
  refine ⟨?_, ?_, ?_, ?_, ⟨rfl, rfl, fun dflt s n h => windowArg_finite P dflt s n h⟩⟩
  · constructor
    · intro h
      by_contra hlt
      rcases getUserQueries_status_long P fault scan uid limit skip st (Nat.not_lt.mp hlt)
        with h1 | h1 <;> rw [h1] at h <;> omega
    · intro h
      rw [getUserQueries_short P fault scan uid limit skip st h]
      rfl
  · intro h P2 fault2 scan2 st2
    rw [getUserQueries_short P fault scan uid limit skip st h,
      getUserQueries_short P2 fault2 scan2 uid limit skip st2 h]
  · intro h hfault L S hL hS hS0
    subst hfault
    rw [getUserQueries_long P none scan uid limit skip st h]
    simp only [find, countDocuments, hL, hS, window_accepts L S hS0]
    refine ⟨rfl,
      (if L = 0 then
        (sortByTimestampDesc scan (st.docs.filter (fun d => uidMatches uid d.uid))).drop S.toNat
      else
        ((sortByTimestampDesc scan (st.docs.filter (fun d => uidMatches uid d.uid))).drop
          S.toNat).take L.natAbs),
      (st.docs.filter (fun d => uidMatches uid d.uid)).length, by simp, ?_⟩
    intro hnone
    have hnil : st.docs.filter (fun d => uidMatches uid d.uid) = [] := by
      rw [List.filter_eq_nil_iff]
      intro d hd
      simp [hnone d hd]
    rw [hnil]
    have hperm : sortByTimestampDesc scan [] = [] :=
      List.Perm.eq_nil ((List.perm_insertionSort _ _).trans (scan.perm []))
    rw [hperm]
    refine ⟨?_, rfl⟩
    split <;> simp
  · intro h S hS hneg
    rw [getUserQueries_long P fault scan uid limit skip st h]
    cases fault with
    | some msg => rfl
    | none =>
      obtain ⟨msg, hmsg⟩ := window_negative_skip (windowArg P 100 limit) S hneg
        (sortByTimestampDesc scan (st.docs.filter (fun d => uidMatches uid d.uid)))
      simp only [find, hS, hmsg]
      rfl

theorem user_queries_status_witness :
    jsLength "user1" = 5 ∧
      (getUserQueries samplePlatform none Scan.natural "user1" none none sampleStore).status
        = 400 ∧
      8 ≤ jsLength "user1234" ∧ parseInt "2" = .finite 2 ∧ parseInt "1" = .finite 1 ∧
      (getUserQueries samplePlatform none Scan.natural "user1234" (some "2") (some "1")
        sampleStore).status = 200 ∧
      (getUserQueries samplePlatform none Scan.natural "nobody-here" none none
        sampleStore).status = 200 ∧
      (getUserQueries samplePlatform none Scan.natural "nobody-here" none none
        sampleStore).count = some 0 := by
  refine ⟨by decide,
    (user_queries_status samplePlatform none Scan.natural "user1" none none sampleStore).1.mpr
      (by decide),
    by decide, by decide, by decide, ?_, ?_, by decide⟩
  · exact ((user_queries_status samplePlatform none Scan.natural "user1234" (some "2")
      (some "1") sampleStore).2.2.1 (by decide) rfl 2 1 (by decide) (by decide) (by decide)).1
  · exact ((user_queries_status samplePlatform none Scan.natural "nobody-here" none none
      sampleStore).2.2.1 (by decide) rfl 100 0 rfl rfl (by decide)).1

/-- Counterexample to the status claim of `GET /api/queries/:uid`: for the uid "user1234", of
length 8, and a store that does not fault, the request with skip=-1 is answered 500. -/
theorem user_queries_negative_skip_fails :
    8 ≤ jsLength "user1234" ∧ parseInt "-1" = .finite (-1) ∧
      (getUserQueries samplePlatform none Scan.natural "user1234" none (some "-1")
        sampleStore).status = 500 := by
  decide

theorem uidMatches_iff (uid : String) (v : JVal) :
    uidMatches uid v = true ↔
      v = .str uid ∨ ∃ items : List JVal, v = .arr items ∧ JVal.str uid ∈ items := by
  cases v with
  | null => simp [uidMatches]
  | bool b => simp [uidMatches]
  | num n => simp [uidMatches]
  | str s => simp [uidMatches]
  | obj m => simp [uidMatches]
  | arr items =>
    simp only [uidMatches, List.any_eq_true]
    constructor
    · rintro ⟨x, hx, hm⟩
      refine Or.inr ⟨items, rfl, ?_⟩
      cases x with
      | str s =>
        have : s = uid := by simpa using hm
        rw [← this]; exact hx
      | null => simp at hm
      | bool b => simp at hm
      | num n => simp at hm
      | arr l => simp at hm
      | obj m => simp at hm
    · rintro (h | ⟨l, hl, hmem⟩)
      · cases h
      · cases hl
        exact ⟨_, hmem, by simp⟩

theorem sortByTimestampDesc_perm (scan : Scan) (l : List Doc) :
    (sortByTimestampDesc scan l).Perm l :=
  (List.perm_insertionSort _ _).trans (scan.perm l)

theorem sortByTimestampDesc_sorted (scan : Scan) (l : List Doc) :
    (sortByTimestampDesc scan l).Pairwise (fun a b => b.timestamp ≤ a.timestamp) := by
  have h := @List.sorted_insertionSort Doc (fun a b => b.timestamp ≤ a.timestamp) _
    ⟨fun a b => Int.le_total b.timestamp a.timestamp⟩
    ⟨fun a b c hab hbc => Int.le_trans hbc hab⟩ (scan.arrange l)
  exact h

theorem sortByTimestampDesc_strict (scan : Scan) (l : List Doc)
    (h : (l.map Doc.timestamp).Nodup) :
    (sortByTimestampDesc scan l).Pairwise (fun a b => b.timestamp < a.timestamp) := by
  have hn : ((sortByTimestampDesc scan l).map Doc.timestamp).Nodup :=
    ((sortByTimestampDesc_perm scan l).map _).nodup_iff.mpr h
  have hne : (sortByTimestampDesc scan l).Pairwise (fun a b => a.timestamp ≠ b.timestamp) :=
    List.pairwise_map.mp hn
  exact ((sortByTimestampDesc_sorted scan l).and hne).imp
    (fun h => lt_of_le_of_ne h.1 (Ne.symm h.2))

theorem sortByTimestampDesc_unique (scan1 scan2 : Scan) (l : List Doc)
    (h : (l.map Doc.timestamp).Nodup) :
    sortByTimestampDesc scan1 l = sortByTimestampDesc scan2 l :=
  @List.eq_of_perm_of_sorted Doc (fun a b => b.timestamp < a.timestamp)
    ⟨fun _ _ hab hba => absurd (lt_trans hab hba) (lt_irrefl _)⟩ _ _
    ((sortByTimestampDesc_perm scan1 l).trans (sortByTimestampDesc_perm scan2 l).symm)
    (sortByTimestampDesc_strict scan1 l h) (sortByTimestampDesc_strict scan2 l h)

theorem window_sublist {α : Type} {limit skip : Option Int} {l ds : List α}
    (h : window limit skip l = .ok ds) : ds.Sublist l := by
  obtain ⟨L, S, _, _, _, hds⟩ := window_ok h
  rw [hds]
  split
  · exact List.drop_sublist _ _
  · exact (List.take_sublist _ _).trans (List.drop_sublist _ _)

theorem units_take_eight (uid : String) :
    ((units uid).take 8 = units uid ↔ jsLength uid ≤ 8) := by
  unfold jsLength
  exact List.take_eq_self_iff _

theorem getUserQueries_ok {P : Platform} {fault : Option String} {scan : Scan} {uid : String}
    {limit skip : Option String} {st : Store} {qs : List (List (String × Value))}
    {total count : Nat} {shown : List Nat}
    (h : getUserQueries P fault scan uid limit skip st = .userQueries qs total count shown) :
    8 ≤ jsLength uid ∧ ∃ ds : List Doc,
      find fault scan (fun d => uidMatches uid d.uid) (windowArg P 100 limit)
        (windowArg P 0 skip) st = .ok ds ∧
      qs = ds.map projectUser ∧ count = ds.length ∧
      total = (st.docs.filter (fun d => uidMatches uid d.uid)).length ∧
      shown = substring0 8 uid ++ units "..." := by
  have hlen : 8 ≤ jsLength uid := by
    by_contra hlt
    rw [getUserQueries_short P fault scan uid limit skip st (Nat.lt_of_not_le hlt)] at h
    cases h
  refine ⟨hlen, ?_⟩
  rw [getUserQueries_long P fault scan uid limit skip st hlen] at h
  cases hf : find fault scan (fun d => uidMatches uid d.uid) (windowArg P 100 limit)
      (windowArg P 0 skip) st with
  | error msg => rw [hf] at h; cases h
  | ok ds =>
    obtain ⟨hfault, _⟩ := find_ok_fault hf
    have hc : countDocuments fault (fun d => uidMatches uid d.uid) st =
        .ok (st.docs.filter (fun d => uidMatches uid d.uid)).length := by
      rw [hfault]; rfl
    rw [hf, hc] at h
    simp only [Response.userQueries.injEq] at h
    obtain ⟨h1, h2, h3, h4⟩ := h
    exact ⟨ds, rfl, h1.symm, by rw [← h3, List.length_map], h2.symm, h4.symm⟩

theorem isText_iff (v : JVal) : v.isText = true ↔ ∃ s, v = .str s := by
  cases v <;> simp [JVal.isText]

theorem uidMatches_text (uid : String) {v : JVal} (h : v.isText = true) :
    uidMatches uid v = textIs uid v := by
  obtain ⟨s, hs⟩ := (isText_iff v).mp h
  subst hs
  rfl

/-- C8 (amended): for a store whose uids are texts, in a 200 response of
`GET /api/queries/:uid` the uid has at least 8 code units, every returned record is the
projection of a stored record whose uid is the requested uid exactly, the records come in
non-increasing order of timestamp, none has an ip_hash field, `count` is the number of returned
records, `total` is the number of stored records with that exact uid, whatever limit and skip
are, and the `uid` field is the first 8 code units of the requested uid followed by three dots:
the whole identifier when it has exactly 8, a proper part of it when it has more. -/
theorem user_queries_content (P : Platform) (fault : Option String) (scan : Scan) (uid : String)
    (limit skip : Option String) (st : Store) (qs : List (List (String × Value)))
    (total count : Nat) (shown : List Nat)
    (htext : ∀ d ∈ st.docs, d.uid.isText = true)
    (h : getUserQueries P fault scan uid limit skip st = .userQueries qs total count shown) :
    8 ≤ jsLength uid ∧
    ∃ ds : List Doc, qs = ds.map projectUser ∧
      (∀ d ∈ ds, d ∈ st.docs ∧ d.uid = .str uid) ∧
      ds.Pairwise (fun a b => b.timestamp ≤ a.timestamp) ∧
      (∀ r ∈ qs, "ip_hash" ∉ fieldNames r) ∧
      count = qs.length ∧
      total = (st.docs.filter (fun d => textIs uid d.uid)).length ∧
      shown = (units uid).take 8 ++ units "..." ∧
      ((units uid).take 8 = units uid ↔ jsLength uid = 8) := by
  obtain ⟨hlen, ds, hf, hqs, hcount, htotal, hshown⟩ := getUserQueries_ok h
  obtain ⟨_, hw⟩ := find_ok_fault hf
  have hsub := window_sublist hw
  have hfilter : st.docs.filter (fun d => uidMatches uid d.uid) =
      st.docs.filter (fun d => textIs uid d.uid) := by
    apply List.filter_congr
    intro d hd
    exact uidMatches_text uid (htext d hd)
  refine ⟨hlen, ds, hqs, ?_, ?_, ?_, ?_, ?_, hshown, ?_⟩
  · intro d hd
    have h1 : d ∈ sortByTimestampDesc scan (st.docs.filter (fun d => uidMatches uid d.uid)) :=
      hsub.subset hd
    have h2 : d ∈ st.docs.filter (fun d => uidMatches uid d.uid) :=
      (sortByTimestampDesc_perm scan _).mem_iff.mp h1
    rw [List.mem_filter] at h2
    refine ⟨h2.1, ?_⟩
    obtain ⟨s, hs⟩ := (isText_iff d.uid).mp (htext d h2.1)
    rcases (uidMatches_iff uid d.uid).mp h2.2 with h3 | ⟨items, h3, _⟩
    · exact h3
    · rw [hs] at h3; cases h3
  · exact (sortByTimestampDesc_sorted scan _).sublist hsub
  · intro r hr
    rw [hqs, List.mem_map] at hr
    obtain ⟨d, _, hd⟩ := hr
    rw [← hd]
    simp [fieldNames, projectUser]
  · rw [hqs, List.length_map]; exact hcount
  · rw [← hfilter]; exact htotal
  · rw [units_take_eight]
    omega

theorem window_nat {α : Type} (L S : Nat) (l : List α) :
    window (some (L : Int)) (some (S : Int)) l =
      .ok (if L = 0 then l.drop S else (l.drop S).take L) := by
  unfold window
  have h1 : ¬ ((S : Int) < 0) := by omega
  simp only [h1, if_false, Int.toNat_ofNat, Int.natAbs_ofNat]
  by_cases hL : L = 0
  · simp [hL]
  · have : ¬ ((L : Int) = 0) := by omega
    simp [hL, this]

theorem getUserQueries_window (P : Platform) (scan : Scan) (uid : String) (st : Store)
    (limit skip : String) (L S : Nat)
    (hlen : 8 ≤ jsLength uid) (hL : parseInt limit = .finite (L : Int))
    (hS : parseInt skip = .finite (S : Int)) :
    getUserQueries P none scan uid (some limit) (some skip) st =
      .userQueries
        ((if L = 0 then
            (sortByTimestampDesc scan (st.docs.filter (fun d => uidMatches uid d.uid))).drop S
          else ((sortByTimestampDesc scan (st.docs.filter (fun d => uidMatches uid d.uid))).drop
            S).take L).map projectUser)
        (st.docs.filter (fun d => uidMatches uid d.uid)).length
        ((if L = 0 then
            (sortByTimestampDesc scan (st.docs.filter (fun d => uidMatches uid d.uid))).drop S
          else ((sortByTimestampDesc scan (st.docs.filter (fun d => uidMatches uid d.uid))).drop
            S).take L).map projectUser).length
        (substring0 8 uid ++ units "...") := by
  rw [getUserQueries_long P none scan uid (some limit) (some skip) st hlen]
  simp only [find, countDocuments, windowArg_finite P _ _ _ hL, windowArg_finite P _ _ _ hS,
    window_nat]

theorem projectUser_nodup (full : List Doc) (h : (full.map Doc.timestamp).Nodup) :
    (full.map projectUser).Nodup := by
  apply List.Nodup.of_map
    (fun r : List (String × Value) =>
      match r with
      | _ :: _ :: _ :: (_, .date t) :: _ => t
      | _ => 0)
  rw [List.map_map]
  exact h

theorem pages_flatten {α : Type} (full : List α) (L : Nat) (n : Nat) :
    ((List.range n).map (fun k => (full.drop (k * L)).take L)).flatten = full.take (n * L) := by
  induction n with
  | zero => simp
  | succ n ih =>
    rw [List.range_succ, List.map_append, List.flatten_append, ih, Nat.succ_mul, List.take_add]
    simp

/-- C4 (amended): for a uid of length at least 8 and integers L, S at least 0 passed as limit
and skip, the response reports as `total` the length of the list of the records selected for
the uid and returns the window after S records of an arrangement of that list sorted by
timestamp descending: at most L records when L is at least 1, all the remaining ones when L is
0 (no limit); and when no two of these records have the same timestamp, for L at least 1 the
pages of skip 0, L, 2L, ..., whatever order the store meets the documents in at each call, are
pairwise disjoint and concatenate, in order, to the first n L records of the one list sorted by
timestamp descending, hence to that full list once n L reaches `total`. -/
theorem user_queries_pagination (P : Platform) (uid : String) (st : Store) (limit : String)
    (L : Nat) (hlen : 8 ≤ jsLength uid) (hL : parseInt limit = .finite (L : Int)) :
    (∀ (scan : Scan) (skip : String) (S : Nat), parseInt skip = .finite (S : Int) →
      ∃ full : List Doc,
        full.Perm (st.docs.filter (fun d => uidMatches uid d.uid)) ∧
        full.Pairwise (fun a b => b.timestamp ≤ a.timestamp) ∧
        (getUserQueries P none scan uid (some limit) (some skip) st).total = some full.length ∧
        (getUserQueries P none scan uid (some limit) (some skip) st).queries =
          (if L = 0 then full.drop S else (full.drop S).take L).map projectUser ∧
        (1 ≤ L →
          (getUserQueries P none scan uid (some limit) (some skip) st).queries.length ≤ L)) ∧
    (((st.docs.filter (fun d => uidMatches uid d.uid)).map Doc.timestamp).Nodup → 1 ≤ L →
      ∃ full : List Doc,
        full.Perm (st.docs.filter (fun d => uidMatches uid d.uid)) ∧
        full.Pairwise (fun a b => b.timestamp ≤ a.timestamp) ∧
        ∀ (n : Nat) (scans : Nat → Scan) (skips : Nat → String),
          (∀ k < n, parseInt (skips k) = .finite ((k * L : Nat) : Int)) →
          (∀ k < n, (getUserQueries P none (scans k) uid (some limit) (some (skips k))
            st).total = some full.length) ∧
          ((List.range n).map (fun k =>
            (getUserQueries P none (scans k) uid (some limit) (some (skips k))
              st).queries)).flatten = (full.take (n * L)).map projectUser ∧
          (full.length ≤ n * L →
            ((List.range n).map (fun k =>
              (getUserQueries P none (scans k) uid (some limit) (some (skips k))
                st).queries)).flatten = full.map projectUser) ∧
          ((List.range n).map (fun k =>
            (getUserQueries P none (scans k) uid (some limit) (some (skips k))
              st).queries)).Pairwise List.Disjoint) := by
  constructor
  · intro scan skip S hS
    refine ⟨sortByTimestampDesc scan (st.docs.filter (fun d => uidMatches uid d.uid)),
      sortByTimestampDesc_perm scan _, sortByTimestampDesc_sorted scan _, ?_⟩
    rw [getUserQueries_window P scan uid st limit skip L S hlen hL hS]
    refine ⟨?_, rfl, ?_⟩
    · simp only [Response.total]
      rw [(sortByTimestampDesc_perm scan _).length_eq]
    · intro h1
      have : L ≠ 0 := by omega
      simp only [Response.queries, this, if_false, List.length_map]
      exact List.length_take_le _ _
  · intro hdistinct h1
    refine ⟨sortByTimestampDesc Scan.natural (st.docs.filter (fun d => uidMatches uid d.uid)),
      sortByTimestampDesc_perm _ _, sortByTimestampDesc_sorted _ _, ?_⟩
    intro n scans skips hskips
    have hne : L ≠ 0 := by omega
    have hpage : ∀ k < n,
        getUserQueries P none (scans k) uid (some limit) (some (skips k)) st =
          .userQueries
            ((((sortByTimestampDesc Scan.natural
              (st.docs.filter (fun d => uidMatches uid d.uid))).drop (k * L)).take L).map
                projectUser)
            (st.docs.filter (fun d => uidMatches uid d.uid)).length
            ((((sortByTimestampDesc Scan.natural
              (st.docs.filter (fun d => uidMatches uid d.uid))).drop (k * L)).take L).map
                projectUser).length
            (substring0 8 uid ++ units "...") := by
      intro k hk
      rw [getUserQueries_window P (scans k) uid st limit (skips k) L (k * L) hlen hL
        (hskips k hk), sortByTimestampDesc_unique (scans k) Scan.natural _ hdistinct]
      simp only [hne, if_false]
    have hpages : (List.range n).map (fun k =>
        (getUserQueries P none (scans k) uid (some limit) (some (skips k)) st).queries) =
        (List.range n).map (fun k =>
          (((sortByTimestampDesc Scan.natural
            (st.docs.filter (fun d => uidMatches uid d.uid))).drop (k * L)).take L).map
              projectUser) := by
      apply List.map_congr_left
      intro k hk
      rw [hpage k (List.mem_range.mp hk)]
      rfl
    have hflat : ((List.range n).map (fun k =>
        (getUserQueries P none (scans k) uid (some limit) (some (skips k)) st).queries)).flatten =
        ((sortByTimestampDesc Scan.natural
          (st.docs.filter (fun d => uidMatches uid d.uid))).take (n * L)).map projectUser := by
      rw [hpages, ← pages_flatten _ L n, List.map_flatten, List.map_map]
      rfl
    refine ⟨?_, hflat, ?_, ?_⟩
    · intro k hk
      rw [hpage k hk]
      simp only [Response.total]
      rw [(sortByTimestampDesc_perm _ _).length_eq]
    · intro hfull
      rw [hflat, List.take_of_length_le hfull]
    · have h3 : ((sortByTimestampDesc Scan.natural
          (st.docs.filter (fun d => uidMatches uid d.uid))).map Doc.timestamp).Nodup :=
        ((sortByTimestampDesc_perm _ _).map _).nodup_iff.mpr hdistinct
      have h4 := projectUser_nodup _ h3
      have h5 : (((sortByTimestampDesc Scan.natural
          (st.docs.filter (fun d => uidMatches uid d.uid))).take (n * L)).map
            projectUser).Nodup :=
        h4.sublist ((List.take_sublist _ _).map _)
      rw [← hflat] at h5
      exact (List.nodup_flatten.mp h5).2

theorem user_queries_content_witness :
    (∀ d ∈ sampleStore.docs, d.uid.isText = true) ∧
      getUserQueries samplePlatform none Scan.natural "user1234" (some "2") (some "1")
          sampleStore =
        .userQueries
          [[("_id", .id 1), ("query", .text "dogs"), ("full_url", .json (.str "https://example.com/b")),
            ("timestamp", .date 2), ("created_at", .date 20)],
           [("_id", .id 0), ("query", .text "cats"), ("full_url", .json (.str "https://example.com/a")),
            ("timestamp", .date 1), ("created_at", .date 10)]]
          3 2 (units "user1234...") ∧
      ∃ ds : List Doc, ds.length = 2 ∧ (∀ d ∈ ds, d ∈ sampleStore.docs ∧ d.uid = .str "user1234") ∧
        ds.Pairwise (fun a b => b.timestamp ≤ a.timestamp) := by
  refine ⟨by decide, rfl, ?_⟩
  obtain ⟨_, ds, h1, h2, h3, _, _, _, _, _⟩ :=
    user_queries_content samplePlatform none Scan.natural "user1234" (some "2") (some "1")
      sampleStore _ 3 2 (units "user1234...") (by decide) rfl
  refine ⟨ds, ?_, h2, h3⟩
  have := congrArg List.length h1
  simpa using this.symm

/-- Counterexample to the content claim of `GET /api/queries/:uid`: for the uid "user1234" the
8 code units shown are the whole identifier, and for "abcdefgh..." the field is the identifier
itself; and after a POST with the array ["user12345"] as uid (answered 500, yet stored) the
route returns for "user12345" a record, counted in `total`, although no stored uid is that text
(the equality filter of the store also selects an array that holds the value). -/
theorem user_queries_shows_whole_identifier :
    substring0 8 "user1234" = units "user1234" ∧
      (getUserQueries samplePlatform none Scan.natural "user1234" none none
        Store.empty).uidShown = some (units "user1234" ++ units "...") ∧
      (getUserQueries samplePlatform none Scan.natural "abcdefgh..." none none
        Store.empty).uidShown = some (units "abcdefgh...") ∧
      (postAiSearch samplePlatform 5 none none arrayUidBody Store.empty).1.status = 500 ∧
      (getUserQueries samplePlatform none Scan.natural "user12345" none none
        (postAiSearch samplePlatform 5 none none arrayUidBody Store.empty).2).queries.length = 1 ∧
      (getUserQueries samplePlatform none Scan.natural "user12345" none none
        (postAiSearch samplePlatform 5 none none arrayUidBody Store.empty).2).total = some 1 ∧
      ((postAiSearch samplePlatform 5 none none arrayUidBody Store.empty).2.docs.filter
        (fun d => textIs "user12345" d.uid)).length = 0 := by
  decide

/-- Counterexample to the pagination claim: with limit 0 and skip 0 the three records of
"user1234" are all returned; and on a store holding for "user1234" the records 0 and 1 of equal
timestamp, the page of limit 1 and skip 0 of a call that meets them in the order they are held
and the page of limit 1 and skip 1 of a call that meets them in the opposite order both return
record 0, so that the pages overlap and record 1 is in neither. -/
theorem user_queries_pagination_fails :
    parseInt "0" = .finite 0 ∧
      (getUserQueries samplePlatform none Scan.natural "user1234" (some "0") (some "0")
        sampleStore).count = some 3 ∧
      parseInt "1" = .finite 1 ∧
      tiedStore.docs.map Doc._id = [0, 1] ∧ tiedStore.docs.map Doc.timestamp = [1, 1] ∧
      (getUserQueries samplePlatform none Scan.natural "user1234" (some "1") (some "0")
        tiedStore).queries.map recordId = [some 0] ∧
      (getUserQueries samplePlatform none Scan.reversed "user1234" (some "1") (some "1")
        tiedStore).queries.map recordId = [some 0] ∧
      (getUserQueries samplePlatform none Scan.reversed "user1234" (some "1") (some "1")
        tiedStore).total = some 2 := by
  decide

theorem user_queries_pagination_witness :
    (8 ≤ jsLength "user1234" ∧ parseInt "2" = .finite ((2 : Nat) : Int) ∧
        ((sampleStore.docs.filter (fun d => uidMatches "user1234" d.uid)).map
          Doc.timestamp).Nodup) ∧
      ∃ full : List Doc,
        (getUserQueries samplePlatform none Scan.natural "user1234" (some "2") (some "0")
            sampleStore).queries ++
          (getUserQueries samplePlatform none Scan.reversed "user1234" (some "2") (some "2")
            sampleStore).queries
            = full.map projectUser ∧ full.length = 3 := by
  refine ⟨⟨by decide, by decide, by decide⟩, ?_⟩
  obtain ⟨full, hperm, _, hpages⟩ :=
    (user_queries_pagination samplePlatform "user1234" sampleStore "2" 2 (by decide)
      (by decide)).2 (by decide) (by decide)
  have hlen : full.length = 3 := by rw [hperm.length_eq]; decide
  refine ⟨full, ?_, hlen⟩
  have h := (hpages 2 (fun k => if k = 0 then Scan.natural else Scan.reversed)
    (fun k => if k = 0 then "0" else "2") (by decide)).2.2.1 (by rw [hlen]; decide)
  simpa [List.range_succ] using h

/-! ## Properties of GET /api/queries -/

theorem utf8Len_pos (c : Char) : 1 ≤ utf8Len c := by
  unfold utf8Len
  split_ifs <;> omega

theorem takeBytes_spec : ∀ (cs : List Char) (n : Nat) (r : List Char),
    takeBytes n cs = some r →
      r <+: cs ∧ byteLength r ≤ n ∧ (r = cs ↔ byteLength cs ≤ n)
  | [], n, r, h => by
    simp only [takeBytes, Option.some.injEq] at h
    subst h
    simp [byteLength]
  | c :: cs, n, r, h => by
    unfold takeBytes at h
    by_cases hc : utf8Len c ≤ n
    · simp only [hc, if_true, Option.map_eq_some'] at h
      obtain ⟨r1, hr1, hr⟩ := h
      obtain ⟨h1, h2, h3⟩ := takeBytes_spec cs (n - utf8Len c) r1 hr1
      subst hr
      refine ⟨?_, ?_, ?_⟩
      · obtain ⟨t, ht⟩ := h1
        exact ⟨t, by simp [ht]⟩
      · simp only [byteLength, List.map_cons, List.sum_cons] at h2 ⊢
        omega
      · simp only [byteLength, List.map_cons, List.sum_cons, List.cons.injEq, true_and] at h3 ⊢
        rw [h3]
        omega
    · simp only [hc, if_false] at h
      by_cases hn : n = 0
      · simp only [hn, if_true, Option.some.injEq] at h
        subst h
        refine ⟨List.nil_prefix, by simp [byteLength], ?_⟩
        have := utf8Len_pos c
        simp only [byteLength, List.map_cons, List.sum_cons]
        constructor
        · intro h; cases h
        · intro h; omega
      · simp [hn] at h

theorem takeBytes_ascii : ∀ (cs : List Char) (n : Nat), (∀ c ∈ cs, c.toNat < 0x80) →
    takeBytes n cs = some (cs.take n)
  | [], n, _ => by simp [takeBytes]
  | c :: cs, n, h => by
    have hc : utf8Len c = 1 := by
      have := h c (List.mem_cons_self _ _)
      simp [utf8Len, this]
    unfold takeBytes
    rw [hc]
    cases n with
    | zero => simp
    | succ n =>
      have ih := takeBytes_ascii cs n (fun x hx => h x (List.mem_cons_of_mem _ hx))
      simp [ih]

theorem projectEach_related (f : Doc → Option (List (String × Value))) :
    ∀ (ds : List Doc) (qs : List (List (String × Value))), projectEach f ds = some qs →
      List.Forall₂ (fun d r => f d = some r) ds qs
  | [], qs, h => by
    simp only [projectEach, Option.some.injEq] at h
    subst h
    exact List.Forall₂.nil
  | d :: ds, qs, h => by
    unfold projectEach at h
    cases hd : f d with
    | none => simp [hd] at h
    | some r =>
      cases hr : projectEach f ds with
      | none => simp [hd, hr] at h
      | some rs =>
        simp only [hd, hr, Option.some.injEq] at h
        subst h
        exact List.Forall₂.cons hd (projectEach_related f ds rs hr)

theorem projectAll_some {P : Platform} {d : Doc} {r : List (String × Value)}
    (h : projectAll P d = some r) :
    ∃ u shown : String, P.textOf d.uid = some u ∧ takeBytes 8 u.data = some shown.data ∧
      recordUid r = some shown ∧
      fieldNames r = ["_id", "query", "timestamp", "created_at", "uid"] := by
  unfold projectAll Platform.substrUid at h
  cases ht : P.textOf d.uid with
  | none => simp [ht] at h
  | some u =>
    cases hb : takeBytes 8 u.data with
    | none => simp [ht, hb] at h
    | some cs =>
      simp only [ht, hb, Option.map_some', Option.some.injEq] at h
      subst h
      exact ⟨u, String.mk cs, rfl, hb, by simp [recordUid], by simp [fieldNames]⟩

/-- C5 (amended): in a 200 response of `GET /api/queries`, whatever limit, skip and search are,
each record answers to a stored record, and when the stored uid is a text the record carries
as `uid` the start of it that fits in 8 bytes of UTF-8, which is its first 8 characters when
the uid is ASCII; this is the stored uid in full exactly when the stored uid has at most 8
bytes, and a proper part of it otherwise. -/
theorem all_queries_redaction (P : Platform) (fault : Option String) (scan : Scan)
    (limit skip search : Option String) (st : Store) (qs : List (List (String × Value)))
    (total count : Nat)
    (h : getAllQueries P fault scan limit skip search st = .allQueries qs total count) :
    ∃ ds : List Doc, (∀ d ∈ ds, d ∈ st.docs) ∧
      List.Forall₂ (fun d r => ∀ u : String, d.uid = .str u →
        ∃ shown : String, recordUid r = some shown ∧
          shown.data <+: u.data ∧ byteLength shown.data ≤ 8 ∧
          ((∀ c ∈ u.data, c.toNat < 0x80) → shown.data = u.data.take 8) ∧
          (shown = u ↔ byteLength u.data ≤ 8)) ds qs := by
  unfold getAllQueries at h
  cases hsel : searchFilter P search with
  | none => simp [hsel] at h
  | some sel =>
    simp only [hsel] at h
    cases hf : find fault scan sel (windowArg P 50 limit) (windowArg P 0 skip) st with
    | error msg => simp [hf] at h
    | ok ds =>
      simp only [hf] at h
      cases hp : projectEach (projectAll P) ds with
      | none => simp [hp] at h
      | some rs =>
        simp only [hp] at h
        cases hc : countDocuments fault sel st with
        | error msg => simp [hc] at h
        | ok n =>
          simp only [hc, Response.allQueries.injEq] at h
          obtain ⟨hqs, _, _⟩ := h
          subst hqs
          obtain ⟨_, hw⟩ := find_ok_fault hf
          refine ⟨ds, ?_, ?_⟩
          · intro d hd
            have h1 := (window_sublist hw).subset hd
            have h2 := (sortByTimestampDesc_perm scan _).mem_iff.mp h1
            exact (List.mem_filter.mp h2).1
          · refine (projectEach_related _ ds rs hp).imp ?_
            intro d r hdr u hu
            obtain ⟨u1, shown, hu1, hb, hrec, _⟩ := projectAll_some hdr
            rw [hu] at hu1
            simp only [Platform.textOf, Option.some.injEq] at hu1
            subst hu1
            obtain ⟨h1, h2, h3⟩ := takeBytes_spec u.data 8 shown.data hb
            refine ⟨shown, hrec, h1, h2, ?_, ?_⟩
            · intro hascii
              have := takeBytes_ascii u.data 8 hascii
              rw [hb] at this
              exact Option.some.inj this
            · rw [← h3]
              constructor
              · intro he; rw [he]
              · intro he
                cases shown; cases u
                simp only at he
                rw [he]

theorem all_queries_redaction_witness :
    getAllQueries samplePlatform none Scan.natural (some "2") none (some "cats") sampleStore =
        .allQueries
          [[("_id", .id 2), ("query", .text "cats"), ("timestamp", .date 3),
            ("created_at", .date 30), ("uid", .text "user1234")],
           [("_id", .id 0), ("query", .text "cats"), ("timestamp", .date 1),
            ("created_at", .date 10), ("uid", .text "user1234")]] 2 2 ∧
      ∃ ds : List Doc, ds.length = 2 ∧ ∀ d ∈ ds, d ∈ sampleStore.docs := by
  refine ⟨rfl, ?_⟩
  obtain ⟨ds, h1, h2⟩ := all_queries_redaction samplePlatform none Scan.natural (some "2") none
    (some "cats") sampleStore
    [[("_id", .id 2), ("query", .text "cats"), ("timestamp", .date 3), ("created_at", .date 30),
      ("uid", .text "user1234")],
     [("_id", .id 0), ("query", .text "cats"), ("timestamp", .date 1), ("created_at", .date 10),
      ("uid", .text "user1234")]] 2 2 rfl
  exact ⟨ds, by simpa using h2.length_eq, h1⟩

/-- Counterexample to the redaction claim: the request with uid "abc" is accepted (201) and
`GET /api/queries` then returns a record whose `uid` is "abc", the stored uid in full. -/
theorem all_queries_short_uid_shown_whole :
    (postAiSearch samplePlatform 5 none none
        (textBody "abc" "cats" "https://example.com" "2024-05-01") Store.empty).1.status = 201 ∧
      (postAiSearch samplePlatform 5 none none
        (textBody "abc" "cats" "https://example.com" "2024-05-01") Store.empty).2.docs.map
          (fun d => textIs "abc" d.uid) = [true] ∧
      (getAllQueries samplePlatform none Scan.natural none none none
        (postAiSearch samplePlatform 5 none none
          (textBody "abc" "cats" "https://example.com" "2024-05-01") Store.empty).2).queries.map
            recordUid = [some "abc"] := by
  decide

/-! ## Properties of GET /api/stats -/

theorem countSince_antitone (a b : Int) (h : b ≤ a) (st : Store) :
    countSince a st ≤ countSince b st := by
  unfold countSince
  apply List.Sublist.length_le
  apply List.monotone_filter_right
  intro d hd
  simp only [decide_eq_true_eq] at hd ⊢
  omega

theorem countSince_le_length (a : Int) (st : Store) : countSince a st ≤ st.docs.length :=
  List.length_filter_le _ _

theorem last7Days_eq (tz : TimeZone) (t : Int) :
    last7Days tz t = tz.utc (tz.localTime t - 7 * msPerDay) := by
  unfold last7Days
  have h : (tz.localTime t / msPerDay - 7) * msPerDay + tz.localTime t % msPerDay
      = tz.localTime t - 7 * msPerDay := by
    have := Int.ediv_add_emod (tz.localTime t) msPerDay
    unfold msPerDay at this ⊢
    omega
  simp only [h]

theorem last7Days_le_today (tz : TimeZone) (now1 now2 : Int)
    (hspan : now2 ≤ now1 + msPerDay) :
    last7Days tz now2 ≤ today tz now1 := by
  rw [last7Days_eq]
  unfold today TimeZone.utc TimeZone.localTime
  have a1 := tz.offsetAt_le now1
  have a2 := tz.offsetAt_ge now1
  have a3 := tz.offsetAt_le now2
  have a4 := tz.offsetAt_ge now2
  have b1 := tz.offsetOfLocal_le (now2 + tz.offsetAt now2 - 7 * msPerDay)
  have b2 := tz.offsetOfLocal_ge (now2 + tz.offsetAt now2 - 7 * msPerDay)
  have b3 := tz.offsetOfLocal_le
    (now1 + tz.offsetAt now1 - (now1 + tz.offsetAt now1) % msPerDay)
  have b4 := tz.offsetOfLocal_ge
    (now1 + tz.offsetAt now1 - (now1 + tz.offsetAt now1) % msPerDay)
  have c1 := Int.emod_nonneg (now1 + tz.offsetAt now1) (show msPerDay ≠ 0 by decide)
  have c2 := Int.emod_lt_of_pos (now1 + tz.offsetAt now1) (show (0 : Int) < msPerDay by decide)
  simp only
  unfold msPerDay at *
  omega

/-- C6: for every store, every time zone and every pair of clock readings of one call (the
second at most a day after the first, in particular the same instant), the counts of
`GET /api/stats` satisfy todayQueries ≤ weekQueries ≤ totalQueries, where todayQueries counts
the records created at or after local midnight of the current day, weekQueries those created at
or after the current local time set back 7 days, and totalQueries all records; local midnight
of today is never earlier than the time 7 days back. -/
theorem stats_counts_ordered (P : Platform) (tz : TimeZone) (now1 now2 : Int)
    (fault : Option String) (st : Store) (s : Stats)
    (hspan : now2 ≤ now1 + msPerDay)
    (h : getStats P tz now1 now2 fault st = .stats s) :
    s.todayQueries ≤ s.weekQueries ∧ s.weekQueries ≤ s.totalQueries ∧
      s.todayQueries = (st.docs.filter (fun d => today tz now1 ≤ d.created_at)).length ∧
      s.weekQueries =
        (st.docs.filter (fun d => last7Days tz now2 ≤ d.created_at)).length ∧
      s.totalQueries = st.docs.length ∧
      last7Days tz now2 ≤ today tz now1 ∧
      last7Days tz now2 = tz.utc (tz.localTime now2 - 7 * msPerDay) ∧
      (∃ m : Int, today tz now1 = tz.utc m ∧ m % msPerDay = 0 ∧
        m ≤ tz.localTime now1 ∧ tz.localTime now1 < m + msPerDay) := by
  unfold getStats at h
  cases fault with
  | some msg => simp at h
  | none =>
    simp only [Response.stats.injEq] at h
    subst h
    refine ⟨countSince_antitone _ _ (last7Days_le_today tz now1 now2 hspan) st,
      countSince_le_length _ st, rfl, rfl, rfl,
      last7Days_le_today tz now1 now2 hspan, last7Days_eq tz now2, ?_⟩
    refine ⟨tz.localTime now1 - tz.localTime now1 % msPerDay, rfl, ?_, ?_, ?_⟩
    · have := Int.emod_emod_of_dvd (tz.localTime now1) (dvd_refl msPerDay)
      unfold msPerDay at *
      omega
    · have := Int.emod_nonneg (tz.localTime now1) (show msPerDay ≠ 0 by decide)
      omega
    · have := Int.emod_lt_of_pos (tz.localTime now1) (show (0 : Int) < msPerDay by decide)
      omega

theorem stats_counts_ordered_witness :
    (86400025 : Int) ≤ 86400025 + msPerDay ∧
      ∃ s : Stats, getStats samplePlatform utcZone 86400025 86400025 none sampleStore = .stats s ∧
        s.todayQueries ≤ s.weekQueries ∧ s.weekQueries ≤ s.totalQueries ∧
        s.todayQueries = 0 ∧ s.weekQueries = 3 := by
  refine ⟨by decide, _, rfl, ?_⟩
  have h := stats_counts_ordered samplePlatform utcZone 86400025 86400025 none
    sampleStore _ (by decide) rfl
  exact ⟨h.1, h.2.1, by decide, by decide⟩

theorem addToGroups_ids (d : Doc) : ∀ gs : List TopQuery,
    (addToGroups d gs).map TopQuery._id =
      if d.query ∈ gs.map TopQuery._id then gs.map TopQuery._id
      else gs.map TopQuery._id ++ [d.query]
  | [] => by simp [addToGroups]
  | g :: gs => by
    unfold addToGroups
    by_cases hg : g._id = d.query
    · simp [hg]
    · have ih := addToGroups_ids d gs
      have hg2 : ¬ d.query = g._id := fun h => hg h.symm
      by_cases hm : d.query ∈ gs.map TopQuery._id
      · simp only [hg, if_false, List.map_cons, ih, hm, if_true, List.mem_cons, or_true]
      · simp only [hg, if_false, List.map_cons, ih, hm, List.mem_cons, hg2, or_self,
          List.cons_append]

theorem addToGroups_mem (d : Doc) : ∀ gs : List TopQuery, (gs.map TopQuery._id).Nodup →
    ∀ g1 ∈ addToGroups d gs,
      (g1 ∈ gs ∧ g1._id ≠ d.query) ∨
      (g1._id = d.query ∧
        ((∃ g ∈ gs, g._id = d.query ∧ g1.count = g.count + 1 ∧
            g1.lastSeen = max g.lastSeen d.timestamp) ∨
          (d.query ∉ gs.map TopQuery._id ∧ g1.count = 1 ∧ g1.lastSeen = d.timestamp)))
  | [], _, g1, h => by
    simp only [addToGroups, List.mem_singleton] at h
    subst h
    exact Or.inr ⟨rfl, Or.inr ⟨by simp, rfl, rfl⟩⟩
  | g :: gs, hnd, g1, h => by
    unfold addToGroups at h
    rw [List.map_cons, List.nodup_cons] at hnd
    by_cases hg : g._id = d.query
    · simp only [hg, if_true, List.mem_cons] at h
      rcases h with h | h
      · subst h
        exact Or.inr ⟨rfl, Or.inl ⟨g, List.mem_cons_self _ _, hg, rfl, rfl⟩⟩
      · refine Or.inl ⟨List.mem_cons_of_mem _ h, ?_⟩
        intro hq
        apply hnd.1
        rw [hg, ← hq]
        exact List.mem_map_of_mem _ h
    · simp only [hg, if_false, List.mem_cons] at h
      rcases h with h | h
      · subst h
        exact Or.inl ⟨List.mem_cons_self _ _, hg⟩
      · rcases addToGroups_mem d gs hnd.2 g1 h with h1 | ⟨h1, h2⟩
        · exact Or.inl ⟨List.mem_cons_of_mem _ h1.1, h1.2⟩
        · refine Or.inr ⟨h1, ?_⟩
          rcases h2 with ⟨g0, hg0, h3⟩ | ⟨h3, h4⟩
          · exact Or.inl ⟨g0, List.mem_cons_of_mem _ hg0, h3⟩
          · refine Or.inr ⟨?_, h4⟩
            simp only [List.map_cons, List.mem_cons, not_or]
            exact ⟨fun hq => hg hq.symm, h3⟩

theorem Grouped.add {ds : List Doc} {gs : List TopQuery} (h : Grouped ds gs) (d : Doc) :
    Grouped (ds ++ [d]) (addToGroups d gs) := by
  have hcount : ∀ q : String, (ds ++ [d]).countP (fun x => x.query = q) =
      ds.countP (fun x => x.query = q) + (if d.query = q then 1 else 0) := by
    intro q
    rw [List.countP_append]
    by_cases hq : d.query = q <;> simp [hq]
  refine ⟨?_, ?_, ?_, ?_, ?_⟩
  · rw [addToGroups_ids]
    split_ifs with hm
    · exact h.nodup
    · exact List.Nodup.append h.nodup (List.nodup_singleton _) (by simpa using hm)
  · intro x hx
    rw [addToGroups_ids]
    rw [List.mem_append, List.mem_singleton] at hx
    split_ifs with hm
    · rcases hx with hx | hx
      · exact h.covers x hx
      · rw [hx]; exact hm
    · rcases hx with hx | hx
      · exact List.mem_append_left _ (h.covers x hx)
      · rw [hx]; simp
  · intro g1 hg1
    rw [hcount]
    rcases addToGroups_mem d gs h.nodup g1 hg1 with ⟨h1, h2⟩ | ⟨h1, ⟨g, hg, h3, h4, _⟩ | ⟨h3, h4, _⟩⟩
    · have : ¬ d.query = g1._id := fun hq => h2 hq.symm
      simp [this, h.count_eq g1 h1]
    · simp only [h1, if_true, h4, h.count_eq g hg, h3]
    · have hz : ds.countP (fun x => x.query = g1._id) = 0 := by
        rw [List.countP_eq_zero]
        intro x hx
        simp only [decide_eq_true_eq]
        intro hq
        apply h3
        rw [← h1, ← hq]
        exact h.covers x hx
      rw [hz, h4, if_pos h1.symm]
  · intro g1 hg1
    rcases addToGroups_mem d gs h.nodup g1 hg1 with ⟨h1, _⟩ | ⟨h1, ⟨g, hg, h3, _, h5⟩ | ⟨_, _, h5⟩⟩
    · obtain ⟨x, hx, hq, ht⟩ := h.seen g1 h1
      exact ⟨x, List.mem_append_left _ hx, hq, ht⟩
    · rcases le_total g.lastSeen d.timestamp with hle | hle
      · exact ⟨d, by simp, h1.symm, by rw [h5, max_eq_right hle]⟩
      · obtain ⟨x, hx, hq, ht⟩ := h.seen g hg
        exact ⟨x, List.mem_append_left _ hx, by rw [hq, h3, h1],
          by rw [h5, max_eq_left hle, ht]⟩
    · exact ⟨d, by simp, h1.symm, h5.symm⟩
  · intro g1 hg1 x hx hq
    rw [List.mem_append, List.mem_singleton] at hx
    rcases addToGroups_mem d gs h.nodup g1 hg1 with ⟨h1, h2⟩ | ⟨h1, ⟨g, hg, h3, _, h5⟩ | ⟨h3, _, h5⟩⟩
    · rcases hx with hx | hx
      · exact h.latest g1 h1 x hx hq
      · subst hx; exact absurd hq.symm h2
    · rw [h5]
      rcases hx with hx | hx
      · exact le_trans (h.latest g hg x hx (by rw [hq, h1, h3])) (le_max_left _ _)
      · subst hx; exact le_max_right _ _
    · rcases hx with hx | hx
      · exact absurd (by rw [← h1, ← hq]; exact h.covers x hx) h3
      · subst hx; exact le_of_eq h5.symm

theorem foldl_grouped : ∀ (ds ds0 : List Doc) (gs : List TopQuery), Grouped ds0 gs →
    Grouped (ds0 ++ ds) (ds.foldl (fun gs d => addToGroups d gs) gs)
  | [], ds0, gs, h => by simpa using h
  | d :: ds, ds0, gs, h => by
    have := foldl_grouped ds (ds0 ++ [d]) (addToGroups d gs) (h.add d)
    simpa using this

theorem groupByQuery_grouped (ds : List Doc) : Grouped ds (groupByQuery ds) := by
  have h0 : Grouped [] [] :=
    ⟨List.nodup_nil, by simp, by simp, by simp, by simp⟩
  simpa [groupByQuery] using foldl_grouped ds [] [] h0

theorem sortedGroups_perm (gs : List TopQuery) :
    (gs.insertionSort (fun a b => b.count ≤ a.count)).Perm gs :=
  List.perm_insertionSort _ gs

theorem sortedGroups_sorted (gs : List TopQuery) :
    (gs.insertionSort (fun a b => b.count ≤ a.count)).Pairwise (fun a b => b.count ≤ a.count) := by
  have h := @List.sorted_insertionSort TopQuery (fun a b => b.count ≤ a.count) _
    ⟨fun a b => Nat.le_total b.count a.count⟩
    ⟨fun a b c hab hbc => Nat.le_trans hbc hab⟩ gs
  exact h

theorem topQueries_mem_groups {st : Store} {g : TopQuery} (h : g ∈ topQueries st) :
    g ∈ groupByQuery st.docs :=
  (sortedGroups_perm _).mem_iff.mp ((List.take_sublist _ _).subset h)

/-- C7: `topQueries` of `GET /api/stats` has at most 10 entries, one per query text and no text
twice, each with the number of stored records of exactly that query text as `count` and the
greatest of their timestamps as `lastSeen`; the entries are in non-increasing order of count,
a query text is left out only when 10 entries are returned, and then its count is no larger
than that of any entry; after the three records "cats", "dogs", "cats" of "user1234" the first
entry is "cats" with count 2. -/
theorem top_queries_spec :
    (∀ st : Store,
      (topQueries st).length ≤ 10 ∧
      ((topQueries st).map TopQuery._id).Nodup ∧
      (∀ g ∈ topQueries st,
        g.count = st.docs.countP (fun d => d.query = g._id) ∧ 1 ≤ g.count ∧
        (∃ d ∈ st.docs, d.query = g._id ∧ d.timestamp = g.lastSeen) ∧
        (∀ d ∈ st.docs, d.query = g._id → d.timestamp ≤ g.lastSeen)) ∧
      (topQueries st).Pairwise (fun a b => b.count ≤ a.count) ∧
      (∀ d ∈ st.docs, d.query ∉ (topQueries st).map TopQuery._id →
        (topQueries st).length = 10 ∧
        ∀ g ∈ topQueries st, st.docs.countP (fun x => x.query = d.query) ≤ g.count)) ∧
    (∀ (P : Platform) (tz : TimeZone) (now1 now2 : Int) (st : Store),
      (getStats P tz now1 now2 none st).topQueries = topQueries st) ∧
    (getStats samplePlatform utcZone 40 40 none sampleStore).topQueries.head? =
      some { _id := "cats", count := 2, lastSeen := 3 } := by
  refine ⟨?_, fun _ _ _ _ _ => rfl, by decide⟩
  intro st
  have hG := groupByQuery_grouped st.docs
  refine ⟨List.length_take_le _ _, ?_, ?_, ?_, ?_⟩
  · have h1 : ((groupByQuery st.docs).insertionSort
        (fun a b => b.count ≤ a.count)).map TopQuery._id |>.Nodup :=
      ((sortedGroups_perm _).map _).nodup_iff.mpr hG.nodup
    exact h1.sublist ((List.take_sublist _ _).map _)
  · intro g hg
    have hg2 := topQueries_mem_groups hg
    obtain ⟨d, hd, hq, ht⟩ := hG.seen g hg2
    refine ⟨hG.count_eq g hg2, ?_, ⟨d, hd, hq, ht⟩, hG.latest g hg2⟩
    rw [hG.count_eq g hg2]
    exact List.countP_pos_iff.mpr ⟨d, hd, by simpa using hq⟩
  · exact (sortedGroups_sorted _).sublist (List.take_sublist _ _)
  · intro d hd hnot
    obtain ⟨gq, hgq, hid⟩ := List.mem_map.mp (hG.covers d hd)
    have hs : gq ∈ (groupByQuery st.docs).insertionSort (fun a b => b.count ≤ a.count) :=
      (sortedGroups_perm _).mem_iff.mpr hgq
    have hsplit := List.take_append_drop 10
      ((groupByQuery st.docs).insertionSort (fun a b => b.count ≤ a.count))
    rw [← hsplit, List.mem_append] at hs
    have hdrop : gq ∈ ((groupByQuery st.docs).insertionSort
        (fun a b => b.count ≤ a.count)).drop 10 := by
      rcases hs with hs | hs
      · exact absurd (by rw [← hid]; exact List.mem_map_of_mem _ hs) hnot
      · exact hs
    have hsorted := sortedGroups_sorted (groupByQuery st.docs)
    rw [← hsplit, List.pairwise_append] at hsorted
    constructor
    · have hlen : 10 < ((groupByQuery st.docs).insertionSort
          (fun a b => b.count ≤ a.count)).length := by
        by_contra hle
        rw [List.drop_of_length_le (Nat.le_of_not_lt hle)] at hdrop
        simp at hdrop
      show (List.take 10 _).length = 10
      rw [List.length_take]
      omega
    · intro g hg
      have := hsorted.2.2 g hg gq hdrop
      rw [hG.count_eq gq hgq, hid] at this
      exact this

end AiModeQueries
